import Mathlib

set_option autoImplicit false

/-!
Shallow embedding of the Alertmanager alerting provider of gatus
(alerting/provider/alertmanager/alertmanager.go).

Go maps are reference values, and several properties of this provider are
about aliasing and deep copies, so the map heap is modelled explicitly: a
value of type map[string]string is either nil (modelled as none) or a
reference (some r) into a heap of association lists.  Go strings are Lean
strings, time.Duration is Int (nanoseconds), time.Time is Nat with 0 as the
zero value.  The pointer *client.Config is opaque: only its identity
matters to the provider, so it is modelled as an abstract id.
-/

namespace Alertmanager

/-- Entries of one Go map[string]string, duplicate-free by construction. -/
abbrev Entries := List (String × String)

/-- Go map read m[k]. -/
def lookupE : Entries → String → Option String
  | [], _ => none
  | (k, v) :: rest, key => if k = key then some v else lookupE rest key

/-- Go map write m[k] = v: replaces the entry for k when present, adds it otherwise. -/
def upsert : Entries → String → String → Entries
  | [], k, v => [(k, v)]
  | (k', v') :: rest, k, v =>
      if k' = k then (k, v) :: rest else (k', v') :: upsert rest k v

/-- The loop `for k, v := range src` writing every pair of src into dst. -/
def writeAll (dst src : Entries) : Entries :=
  src.foldl (fun d kv => upsert d kv.1 kv.2) dst

/-- The keys of an Entries list are pairwise distinct (true of every Go map). -/
def distinctKeys (es : Entries) : Prop := (es.map Prod.fst).Nodup

instance (es : Entries) : Decidable (distinctKeys es) := by
  unfold distinctKeys; infer_instance

/-- The heap of allocated Go maps; a map reference is an index into cells. -/
structure Heap where
  cells : List Entries
deriving DecidableEq, Repr

def Heap.size (h : Heap) : Nat := h.cells.length

/-- Dereference a map; out-of-range reads yield the empty map (never happens
for references produced by alloc). -/
def Heap.get (h : Heap) (r : Nat) : Entries := h.cells.getD r []

/-- make(map[string]string) followed by populating it with e: returns the
extended heap and the fresh reference. -/
def Heap.alloc (h : Heap) (e : Entries) : Heap × Nat :=
  (⟨h.cells ++ [e]⟩, h.cells.length)

/-- Overwrite the contents of an allocated map. -/
def Heap.write (h : Heap) (r : Nat) (e : Entries) : Heap :=
  ⟨h.cells.set r e⟩

/-- len(m) for a possibly-nil map (len of a nil map is 0 in Go). -/
def mapLen (h : Heap) : Option Nat → Nat
  | none => 0
  | some r => (h.get r).length

/-- The entries ranged over by `for k, v := range m` (empty for a nil map). -/
def mapEntries (h : Heap) : Option Nat → Entries
  | none => []
  | some r => h.get r

/-- The errors this provider returns from Validate. -/
inductive GoError where
  | alertmanagerURLNotSet
deriving DecidableEq, Repr

/-- time.Second in nanoseconds (time.Duration is an int64 count of nanoseconds). -/
def goSecond : Int := 1000000000

/-- Config is the configuration for the Alertmanager provider
(alertmanager.go lines 24 to 42).  ExtraLabels and ExtraAnnotations are
possibly-nil map references; ClientConfig is a possibly-nil opaque pointer. -/
structure Config where
  URL : String
  Timeout : Int
  DefaultSeverity : String
  ExtraLabels : Option Nat
  ExtraAnnotations : Option Nat
  ClientConfig : Option Nat
deriving DecidableEq, Repr

/-- The zero value of Config. -/
def Config.zero : Config :=
  { URL := "", Timeout := 0, DefaultSeverity := "",
    ExtraLabels := none, ExtraAnnotations := none, ClientConfig := none }

/-- Config.Validate (alertmanager.go lines 44 to 55).  The Go method mutates
its receiver and returns an error; here it returns the updated receiver
together with the error. -/
def Config.Validate (cfg : Config) : Config × Option GoError :=
  if cfg.URL.length = 0 then
    (cfg, some .alertmanagerURLNotSet)
  else
    let cfg1 := if cfg.Timeout = 0 then { cfg with Timeout := 10 * goSecond } else cfg
    let cfg2 :=
      if cfg1.DefaultSeverity.length = 0 then { cfg1 with DefaultSeverity := "critical" } else cfg1
    (cfg2, none)

/-- One map block of Config.Merge (alertmanager.go lines 70 to 77 for
ExtraLabels, 78 to 85 for ExtraAnnotations): when the override map is
non-empty, allocate a fresh map if the receiver's is nil, then copy every
override entry into the receiver's map. -/
def mergeMapField (h : Heap) (dst src : Option Nat) : Heap × Option Nat :=
  match src with
  | none => (h, dst)
  | some rs =>
    if (h.get rs).length > 0 then
      match dst with
      | none =>
        ((h.alloc []).1.write (h.alloc []).2
           (writeAll ((h.alloc []).1.get (h.alloc []).2) ((h.alloc []).1.get rs)),
         some (h.alloc []).2)
      | some rd => (h.write rd (writeAll (h.get rd) (h.get rs)), some rd)
    else (h, dst)

/-- Config.Merge (alertmanager.go lines 57 to 86).  The Go method mutates its
receiver; here it returns the updated heap and receiver. -/
def Config.Merge (h : Heap) (cfg override : Config) : Heap × Config :=
  let cfg := if override.ClientConfig.isSome then { cfg with ClientConfig := override.ClientConfig } else cfg
  let cfg := if override.URL.length > 0 then { cfg with URL := override.URL } else cfg
  let cfg := if override.Timeout > 0 then { cfg with Timeout := override.Timeout } else cfg
  let cfg :=
    if override.DefaultSeverity.length > 0 then { cfg with DefaultSeverity := override.DefaultSeverity } else cfg
  let pl := mergeMapField h cfg.ExtraLabels override.ExtraLabels
  let cfg := { cfg with ExtraLabels := pl.2 }
  let pa := mergeMapField pl.1 cfg.ExtraAnnotations override.ExtraAnnotations
  (pa.1, { cfg with ExtraAnnotations := pa.2 })

/-- A value-level view of Config: map fields carried by their contents rather
than by reference.  This is the shape of a parsed YAML Config document, and
the shape on which the spec's layering pipeline is stated and compared with
the heap-level GetConfig. -/
structure ConfigV where
  URL : String
  Timeout : Int
  DefaultSeverity : String
  ExtraLabels : Option Entries
  ExtraAnnotations : Option Entries
  ClientConfig : Option Nat
deriving DecidableEq, Repr

/-- Read a Config through a heap into its value-level view. -/
def Config.toV (h : Heap) (c : Config) : ConfigV :=
  { URL := c.URL, Timeout := c.Timeout, DefaultSeverity := c.DefaultSeverity,
    ExtraLabels := c.ExtraLabels.map h.get,
    ExtraAnnotations := c.ExtraAnnotations.map h.get,
    ClientConfig := c.ClientConfig }

/-- Modelled from the spec: the alert descriptor (an external collaborator of
this file) exposes an optional human description and an optional raw
per-alert override blob in the same schema as Config.  The blob is
schema-free bytes parsed by the YAML library, an excluded external
collaborator, so it is represented by its parse outcome: none for an empty
blob, some (.error msg) for a blob the YAML parser rejects, and
some (.ok fragment) for a successfully parsed Config fragment (a value-level
document; GetConfig allocates fresh maps for it, as unmarshalling does). -/
structure Alert where
  description : Option String
  providerOverride : Option (Except String ConfigV)
deriving Repr

/-- Modelled from the spec: alert.GetDescription returns the description or
the empty string when unset. -/
def Alert.GetDescription (a : Alert) : String := a.description.getD ""

/-- Modelled from the spec: the monitored endpoint descriptor exposes its
name, URL and routing group. -/
structure Endpoint where
  Name : String
  URL : String
  Group : String
deriving DecidableEq, Repr

/-- Modelled from the spec: the check-result descriptor exposes the list of
error strings of the latest evaluation. -/
structure Result where
  Errors : List String
deriving DecidableEq, Repr

/-- Override is a case under which the default integration is overridden
(alertmanager.go lines 100 to 103); the Go struct embeds Config. -/
structure Override where
  Group : String
  Config : Config
deriving DecidableEq, Repr

/-- AlertProvider is the configuration necessary for sending alerts to
Alertmanager (alertmanager.go lines 89 to 97). -/
structure AlertProvider where
  DefaultConfig : Config
  DefaultAlert : Option Alert
  Overrides : List Override
deriving Repr

/-- AlertmanagerAlert represents an alert in Alertmanager API v2 format
(alertmanager.go lines 106 to 111).  The Labels and Annotations maps never
escape the payload, so they are carried by value. -/
structure AlertmanagerAlert where
  Labels : Entries
  Annotations : Entries
  StartsAt : Nat
  EndsAt : Nat
deriving DecidableEq, Repr

/-- buildAlert constructs an Alertmanager alert payload (alertmanager.go
lines 130 to 181).  time.Now() is passed in as now; the zero value of
time.Time is 0. -/
def buildAlert (h : Heap) (cfg : Config) (ep : Endpoint) (a : Alert) (result : Result)
    (resolved : Bool) (now : Nat) : AlertmanagerAlert :=
  let labels : Entries := []
  let labels := upsert labels "alertname" "GatusEndpointDown"
  let labels := upsert labels "instance" ep.URL
  let labels := upsert labels "job" "gatus"
  let labels := upsert labels "severity" cfg.DefaultSeverity
  let labels := upsert labels "endpoint" ep.Name
  let labels := if ep.Group ≠ "" then upsert labels "group" ep.Group else labels
  let labels := writeAll labels (mapEntries h cfg.ExtraLabels)
  let anns : Entries := []
  let (anns, endsAt) :=
    if resolved then
      let anns := upsert anns "summary" ("Endpoint " ++ ep.Name ++ " is now healthy")
      let anns := upsert anns "description"
        ("Endpoint " ++ ep.Name ++ " (" ++ ep.URL ++ ") has recovered and is now passing health checks")
      (anns, now)
    else
      let anns := upsert anns "summary" ("Endpoint " ++ ep.Name ++ " is down")
      let d := "Endpoint " ++ ep.Name ++ " (" ++ ep.URL ++ ") has failed health checks"
      let d :=
        if result.Errors.length > 0 then d ++ ". Errors: " ++ String.intercalate ", " result.Errors
        else d
      let anns := upsert anns "description" d
      (anns, 0)
  let anns := if a.GetDescription ≠ "" then upsert anns "alert_description" a.GetDescription else anns
  let anns := writeAll anns (mapEntries h cfg.ExtraAnnotations)
  { Labels := labels, Annotations := anns, StartsAt := now, EndsAt := endsAt }

/-- strings.HasSuffix. -/
def goHasSuffix (s suffix : String) : Bool := suffix.data.isSuffixOf s.data

/-- strings.TrimSuffix: removes one copy of suffix when present. -/
def goTrimSuffix (s suffix : String) : String :=
  if goHasSuffix s suffix then String.mk (s.data.take (s.data.length - suffix.data.length)) else s

/-- The Alertmanager v2 alerts path appended by sendToAlertmanager. -/
def alertsPath : String := "/api/v2/alerts"

/-- The URL normalization of sendToAlertmanager (alertmanager.go lines 190
to 194): trim one trailing slash, then append the alerts path unless the
result already ends with it. -/
def buildAlertsURL (u : String) : String :=
  let url := goTrimSuffix u "/"
  if goHasSuffix url alertsPath then url else url ++ alertsPath

/-- The response classification of sendToAlertmanager (alertmanager.go lines
214 to 219): a status code outside 200 to 299 yields the formatted error
carrying the code and the body; otherwise nil is returned. -/
def classifyResponse (statusCode : Nat) (body : String) : Option String :=
  if statusCode < 200 ∨ 300 ≤ statusCode then
    some ("Alertmanager returned status " ++ toString statusCode ++ ": " ++ body)
  else
    none

/-- The deep copy GetConfig performs on each non-nil map of DefaultConfig
(alertmanager.go lines 232 to 245): make a fresh map and copy every entry. -/
def deepCopyMap (h : Heap) : Option Nat → Heap × Option Nat
  | none => (h, none)
  | some r =>
    let p := h.alloc (writeAll [] (h.get r))
    (p.1, some p.2)

/-- The group-override loop of GetConfig (alertmanager.go lines 248 to 255):
merge the first override whose Group equals the input group, then break. -/
def applyGroupOverrides (h : Heap) (cfg : Config) (group : String) :
    List Override → Heap × Config
  | [] => (h, cfg)
  | o :: rest =>
    if group = o.Group then Config.Merge h cfg o.Config
    else applyGroupOverrides h cfg group rest

/-- yaml.Unmarshal of the alert override blob into a fresh Config
(alertmanager.go lines 259 to 262): unmarshalling allocates fresh maps for
the document's non-nil map fields. -/
def allocConfigFragment (h : Heap) (v : ConfigV) : Heap × Config :=
  let pl : Heap × Option Nat := match v.ExtraLabels with
    | none => (h, none)
    | some es => ((h.alloc es).1, some (h.alloc es).2)
  let pa : Heap × Option Nat := match v.ExtraAnnotations with
    | none => (pl.1, none)
    | some es => ((pl.1.alloc es).1, some (pl.1.alloc es).2)
  (pa.1, { URL := v.URL, Timeout := v.Timeout, DefaultSeverity := v.DefaultSeverity,
           ExtraLabels := pl.2, ExtraAnnotations := pa.2, ClientConfig := v.ClientConfig })

/-- GetConfig returns the configuration for the provider with the overrides
applied (alertmanager.go lines 228 to 269).  The outer Option is none
exactly when the YAML parse of the alert override blob fails (the Go code
returns nil and the parse error); otherwise the config is returned together
with the error of the final Validate, as in the Go code's final
return statement. -/
def AlertProvider.GetConfig (h : Heap) (provider : AlertProvider) (group : String) (a : Alert) :
    Heap × Option (Config × Option GoError) :=
  let cfg := provider.DefaultConfig
  let pl := deepCopyMap h cfg.ExtraLabels
  let cfg := { cfg with ExtraLabels := pl.2 }
  let pa := deepCopyMap pl.1 cfg.ExtraAnnotations
  let cfg := { cfg with ExtraAnnotations := pa.2 }
  let pg := applyGroupOverrides pa.1 cfg group provider.Overrides
  match a.providerOverride with
  | none => (pg.1, some pg.2.Validate)
  | some (Except.error _) => (pg.1, none)
  | some (Except.ok v) =>
    let pf := allocConfigFragment pg.1 v
    let pm := Config.Merge pf.1 pg.2 pf.2
    (pm.1, some pm.2.Validate)

/-! ### Value-level resolution pipeline

The spec states the resolution algorithm on configuration values: start from
the defaults, merge the first matching group override, merge the parsed
alert-level fragment, validate.  The following definitions express that
pipeline on ConfigV; the refinement theorems below compare the heap-level
GetConfig against it. -/

/-- len of a possibly-nil map carried by value. -/
def entriesLenV : Option Entries → Nat
  | none => 0
  | some es => es.length

/-- The map-field part of Merge at value level. -/
def mergeEntriesV (dst src : Option Entries) : Option Entries :=
  if entriesLenV src > 0 then some (writeAll (dst.getD []) (src.getD [])) else dst

/-- Config.Merge at value level: a field of the override replaces (for the
map fields: is written over) the base field exactly when present. -/
def ConfigV.mergeV (b o : ConfigV) : ConfigV :=
  { ClientConfig := if o.ClientConfig.isSome then o.ClientConfig else b.ClientConfig,
    URL := if o.URL.length > 0 then o.URL else b.URL,
    Timeout := if o.Timeout > 0 then o.Timeout else b.Timeout,
    DefaultSeverity := if o.DefaultSeverity.length > 0 then o.DefaultSeverity else b.DefaultSeverity,
    ExtraLabels := mergeEntriesV b.ExtraLabels o.ExtraLabels,
    ExtraAnnotations := mergeEntriesV b.ExtraAnnotations o.ExtraAnnotations }

/-- Config.Validate at value level. -/
def ConfigV.validateV (cfg : ConfigV) : ConfigV × Option GoError :=
  if cfg.URL.length = 0 then
    (cfg, some .alertmanagerURLNotSet)
  else
    let cfg1 := if cfg.Timeout = 0 then { cfg with Timeout := 10 * goSecond } else cfg
    let cfg2 :=
      if cfg1.DefaultSeverity.length = 0 then { cfg1 with DefaultSeverity := "critical" } else cfg1
    (cfg2, none)

/-- Value-level view of an Override. -/
structure OverrideV where
  Group : String
  Config : ConfigV
deriving DecidableEq, Repr

def Override.toV (h : Heap) (o : Override) : OverrideV :=
  { Group := o.Group, Config := o.Config.toV h }

/-- Value-level view of a provider: its default config and overrides, read
through the heap. -/
structure ProviderV where
  DefaultConfig : ConfigV
  Overrides : List OverrideV
deriving DecidableEq, Repr

def AlertProvider.toV (h : Heap) (p : AlertProvider) : ProviderV :=
  { DefaultConfig := p.DefaultConfig.toV h, Overrides := p.Overrides.map (Override.toV h) }

/-- The spec's resolution algorithm (section 4.2) on values: start from
DefaultConfig (deep copying is the identity on values), merge the first
override whose Group equals the input group, merge the parsed alert-level
fragment on top, validate.  none exactly when the blob fails to parse. -/
def getConfigV (p : ProviderV) (group : String) (blob : Option (Except String ConfigV)) :
    Option (ConfigV × Option GoError) :=
  let cfg := p.DefaultConfig
  let cfg := match p.Overrides.find? (fun o => group == o.Group) with
    | some o => cfg.mergeV o.Config
    | none => cfg
  match blob with
  | none => some cfg.validateV
  | some (Except.error _) => none
  | some (Except.ok v) => some ((cfg.mergeV v).validateV)

/-! ### Heap lemmas -/

theorem Heap.size_alloc (h : Heap) (e : Entries) : (h.alloc e).1.size = h.size + 1 := by
  simp [Heap.alloc, Heap.size]

theorem Heap.alloc_ref (h : Heap) (e : Entries) : (h.alloc e).2 = h.size := rfl

theorem Heap.get_eq_getElem? (h : Heap) (r : Nat) : h.get r = (h.cells[r]?).getD [] := by
  simp [Heap.get, List.getD_eq_getElem?_getD]

theorem Heap.get_alloc_of_lt (h : Heap) (e : Entries) {r : Nat} (hr : r < h.size) :
    (h.alloc e).1.get r = h.get r := by
  rw [Heap.get_eq_getElem?, Heap.get_eq_getElem?]
  simp only [Heap.alloc]
  rw [List.getElem?_append]
  simp [Heap.size] at hr
  simp [hr]

theorem Heap.get_alloc_self (h : Heap) (e : Entries) : (h.alloc e).1.get h.size = e := by
  rw [Heap.get_eq_getElem?]
  simp only [Heap.alloc]
  rw [List.getElem?_append_right (by simp [Heap.size])]
  simp [Heap.size]

theorem Heap.size_write (h : Heap) (r : Nat) (e : Entries) : (h.write r e).size = h.size := by
  simp [Heap.write, Heap.size]

theorem Heap.get_write_self (h : Heap) {r : Nat} (e : Entries) (hr : r < h.size) :
    (h.write r e).get r = e := by
  rw [Heap.get_eq_getElem?]
  simp only [Heap.write]
  rw [List.getElem?_set_self (by simpa [Heap.size] using hr)]
  rfl

theorem Heap.get_write_of_ne (h : Heap) {r r' : Nat} (e : Entries) (hne : r' ≠ r) :
    (h.write r e).get r' = h.get r' := by
  rw [Heap.get_eq_getElem?, Heap.get_eq_getElem?]
  simp only [Heap.write]
  rw [List.getElem?_set_ne (Ne.symm hne)]

theorem Heap.get_of_size_le (h : Heap) {r : Nat} (hr : h.size ≤ r) : h.get r = [] := by
  rw [Heap.get_eq_getElem?]
  rw [List.getElem?_eq_none (by simpa [Heap.size] using hr)]
  rfl

/-- A non-empty dereference is always in range. -/
theorem Heap.lt_size_of_get_ne_nil (h : Heap) {r : Nat} (hne : h.get r ≠ []) : r < h.size := by
  by_contra hcon
  exact hne (h.get_of_size_le (Nat.le_of_not_lt hcon))

/-! ### Map entry lemmas -/

theorem lookupE_upsert (es : Entries) (k v key : String) :
    lookupE (upsert es k v) key = if k = key then some v else lookupE es key := by
  induction es with
  | nil => simp [upsert, lookupE]
  | cons kv rest ih =>
    obtain ⟨k', v'⟩ := kv
    by_cases hk : k' = k
    · subst hk
      by_cases hkey : k' = key <;> simp [upsert, lookupE, hkey]
    · by_cases hkey : k' = key
      · subst hkey
        have : ¬ (k = k') := fun he => hk he.symm
        simp [upsert, lookupE, hk, this]
      · simp [upsert, lookupE, hk, hkey, ih]

theorem lookupE_eq_none_iff (es : Entries) (key : String) :
    lookupE es key = none ↔ key ∉ es.map Prod.fst := by
  induction es with
  | nil => simp [lookupE]
  | cons kv rest ih =>
    obtain ⟨k, v⟩ := kv
    by_cases hk : k = key
    · subst hk; simp [lookupE]
    · have : key ≠ k := Ne.symm hk
      simp [lookupE, hk, ih, this]

/-- Head decomposition of distinctKeys. -/
theorem distinctKeys_cons {k : String} {v : String} {rest : Entries}
    (hsrc : distinctKeys ((k, v) :: rest)) :
    k ∉ rest.map Prod.fst ∧ distinctKeys rest := by
  have h' : (((k, v) :: rest).map Prod.fst).Nodup := hsrc
  rw [List.map_cons, List.nodup_cons] at h'
  exact h'

theorem lookupE_writeAll_of_none (dst src : Entries) (key : String)
    (hnone : lookupE src key = none) :
    lookupE (writeAll dst src) key = lookupE dst key := by
  induction src generalizing dst with
  | nil => simp [writeAll]
  | cons kv rest ih =>
    obtain ⟨k, v⟩ := kv
    by_cases hk : k = key
    · subst hk; simp [lookupE] at hnone
    · have hrest : lookupE rest key = none := by
        simpa [lookupE, hk] using hnone
      show lookupE (writeAll (upsert dst k v) rest) key = lookupE dst key
      rw [ih _ hrest, lookupE_upsert]
      simp [hk]

theorem lookupE_writeAll (dst src : Entries) (key : String) (hsrc : distinctKeys src) :
    lookupE (writeAll dst src) key =
      ((lookupE src key).rec (lookupE dst key) (fun v => some v) : Option String) := by
  induction src generalizing dst with
  | nil => simp [writeAll, lookupE]
  | cons kv rest ih =>
    obtain ⟨k, v⟩ := kv
    have hk_not : k ∉ rest.map Prod.fst := (distinctKeys_cons hsrc).1
    have hdk : distinctKeys rest := (distinctKeys_cons hsrc).2
    show lookupE (writeAll (upsert dst k v) rest) key = _
    by_cases hk : k = key
    · subst hk
      have hrest : lookupE rest k = none := (lookupE_eq_none_iff rest k).mpr hk_not
      rw [lookupE_writeAll_of_none _ _ _ hrest, lookupE_upsert]
      simp [lookupE]
    · rw [ih _ hdk, lookupE_upsert]
      simp [lookupE, hk]

theorem upsert_of_not_mem (es : Entries) (k v : String) (hk : k ∉ es.map Prod.fst) :
    upsert es k v = es ++ [(k, v)] := by
  induction es with
  | nil => simp [upsert]
  | cons kv rest ih =>
    obtain ⟨k', v'⟩ := kv
    simp only [List.map_cons, List.mem_cons] at hk
    push_neg at hk
    have : ¬ (k' = k) := fun he => hk.1 he.symm
    simp [upsert, this, ih hk.2]

theorem writeAll_of_disjoint (dst src : Entries) (hsrc : distinctKeys src)
    (hdisj : ∀ k ∈ src.map Prod.fst, k ∉ dst.map Prod.fst) :
    writeAll dst src = dst ++ src := by
  induction src generalizing dst with
  | nil => simp [writeAll]
  | cons kv rest ih =>
    obtain ⟨k, v⟩ := kv
    have hk_not : k ∉ rest.map Prod.fst := (distinctKeys_cons hsrc).1
    have hdk : distinctKeys rest := (distinctKeys_cons hsrc).2
    have hdisj' : ∀ k' ∈ rest.map Prod.fst, k' ∉ (dst ++ [(k, v)]).map Prod.fst := by
      intro k' hk'
      simp only [List.map_append, List.mem_append]
      push_neg
      refine ⟨hdisj k' (by simp [hk']), ?_⟩
      simp only [List.map_cons, List.map_nil, List.mem_singleton]
      intro hc
      exact hk_not (hc ▸ hk')
    show writeAll (upsert dst k v) rest = dst ++ (k, v) :: rest
    rw [upsert_of_not_mem dst k v (hdisj k (by simp))]
    rw [ih (dst ++ [(k, v)]) hdk hdisj']
    simp

/-- Copying a duplicate-free map entry by entry reproduces it. -/
theorem writeAll_nil (es : Entries) (hes : distinctKeys es) : writeAll [] es = es := by
  have := writeAll_of_disjoint [] es hes (by simp)
  simpa using this

/-! ### Well-formedness predicates and mergeMapField facts -/

/-- A possibly-nil map reference is valid in h: nil or in range. -/
def refOk (h : Heap) : Option Nat → Prop
  | none => True
  | some r => r < h.size

instance (h : Heap) (o : Option Nat) : Decidable (refOk h o) := by
  cases o <;> unfold refOk <;> infer_instance

/-- Both map references of a config are valid in h. -/
def CfgOk (h : Heap) (c : Config) : Prop :=
  refOk h c.ExtraLabels ∧ refOk h c.ExtraAnnotations

instance (h : Heap) (c : Config) : Decidable (CfgOk h c) := by
  unfold CfgOk; infer_instance

/-- h extends h0: nothing below h0.size was touched. -/
def HeapExt (h0 h : Heap) : Prop :=
  h0.size ≤ h.size ∧ ∀ r, r < h0.size → h.get r = h0.get r

/-- During GetConfig, the working config's maps live strictly above the
heap the call started with, and its two maps never alias each other. -/
def FreshCfg (h0 h : Heap) (c : Config) : Prop :=
  (∀ r, c.ExtraLabels = some r → h0.size ≤ r ∧ r < h.size) ∧
  (∀ r, c.ExtraAnnotations = some r → h0.size ≤ r ∧ r < h.size) ∧
  (c.ExtraLabels = none ∨ c.ExtraLabels ≠ c.ExtraAnnotations)

theorem HeapExt.refl (h : Heap) : HeapExt h h := ⟨Nat.le_refl _, fun _ _ => rfl⟩

theorem HeapExt.trans {h0 h1 h2 : Heap} (e1 : HeapExt h0 h1) (e2 : HeapExt h1 h2) :
    HeapExt h0 h2 :=
  ⟨Nat.le_trans e1.1 e2.1, fun r hr => (e2.2 r (Nat.lt_of_lt_of_le hr e1.1)).trans (e1.2 r hr)⟩

/-- Reading a config whose references are valid in h0 gives the same value
in any extension of h0. -/
theorem Config.toV_of_ext {h0 h : Heap} (c : Config) (hok : CfgOk h0 c) (hext : HeapExt h0 h) :
    c.toV h = c.toV h0 := by
  unfold Config.toV
  congr 1
  · cases hEL : c.ExtraLabels with
    | none => rfl
    | some r =>
      have : r < h0.size := by have := hok.1; rw [hEL] at this; exact this
      simp [hext.2 r this]
  · cases hEA : c.ExtraAnnotations with
    | none => rfl
    | some r =>
      have : r < h0.size := by have := hok.2; rw [hEA] at this; exact this
      simp [hext.2 r this]

/-- The complete behavior of one map block of Merge: the heap changes only at
the destination reference (or a fresh cell), the result reference is the
destination's or a fresh one, and the contents are the value-level merge of
the two maps as read before the call. -/
theorem mergeMapField_facts (h : Heap) (dst src : Option Nat) (hdst : refOk h dst) :
    (∀ r, r < h.size → dst ≠ some r → (mergeMapField h dst src).1.get r = h.get r)
    ∧ h.size ≤ (mergeMapField h dst src).1.size
    ∧ ((mergeMapField h dst src).2 = dst ∨
        (dst = none ∧ (mergeMapField h dst src).2 = some h.size
          ∧ (mergeMapField h dst src).1.size = h.size + 1))
    ∧ refOk (mergeMapField h dst src).1 (mergeMapField h dst src).2
    ∧ (mergeMapField h dst src).2.map (mergeMapField h dst src).1.get
        = mergeEntriesV (dst.map h.get) (src.map h.get) := by
  cases src with
  | none =>
    have heq : mergeMapField h dst none = (h, dst) := rfl
    rw [heq]
    refine ⟨fun r _ _ => rfl, Nat.le_refl _, Or.inl rfl, hdst, ?_⟩
    simp [mergeEntriesV, entriesLenV]
  | some rs =>
    by_cases hlen : (h.get rs).length > 0
    · have hrs_lt : rs < h.size := by
        apply h.lt_size_of_get_ne_nil
        intro hnil
        rw [hnil] at hlen
        simp at hlen
      cases dst with
      | none =>
        have halloc_get : (h.alloc []).1.get (h.alloc []).2 = [] := by
          rw [Heap.alloc_ref]; exact h.get_alloc_self []
        have halloc_rs : (h.alloc []).1.get rs = h.get rs := h.get_alloc_of_lt [] hrs_lt
        have hsz_alloc : (h.alloc []).1.size = h.size + 1 := h.size_alloc []
        have heq : mergeMapField h none (some rs) =
            ((h.alloc []).1.write (h.alloc []).2
               (writeAll ((h.alloc []).1.get (h.alloc []).2) ((h.alloc []).1.get rs)),
             some (h.alloc []).2) := by
          simp only [mergeMapField]
          rw [if_pos hlen]
        rw [heq]
        constructor
        · intro r hr _
          rw [Heap.get_write_of_ne _ _ (by rw [Heap.alloc_ref]; exact Nat.ne_of_lt hr)]
          exact h.get_alloc_of_lt _ hr
        refine ⟨?_, Or.inr ⟨rfl, by rw [Heap.alloc_ref], by rw [Heap.size_write, hsz_alloc]⟩, ?_, ?_⟩
        · rw [Heap.size_write, hsz_alloc]; exact Nat.le_succ _
        · show (h.alloc []).2 < _
          rw [Heap.size_write, hsz_alloc, Heap.alloc_ref]
          exact Nat.lt_succ_self _
        · have hcell : ((h.alloc []).1.write (h.alloc []).2
              (writeAll ((h.alloc []).1.get (h.alloc []).2) ((h.alloc []).1.get rs))).get (h.alloc []).2
              = writeAll [] (h.get rs) := by
            rw [Heap.get_write_self _ _ (by rw [hsz_alloc, Heap.alloc_ref]; exact Nat.lt_succ_self _)]
            rw [halloc_get, halloc_rs]
          show some _ = _
          rw [hcell]
          simp [mergeEntriesV, entriesLenV, hlen]
      | some rd =>
        have hrd_lt : rd < h.size := hdst
        have heq : mergeMapField h (some rd) (some rs) =
            (h.write rd (writeAll (h.get rd) (h.get rs)), some rd) := by
          simp only [mergeMapField]
          rw [if_pos hlen]
        rw [heq]
        constructor
        · intro r hr hne
          apply Heap.get_write_of_ne
          intro he
          exact hne (by rw [he])
        refine ⟨by rw [Heap.size_write], Or.inl rfl, ?_, ?_⟩
        · show rd < _
          rw [Heap.size_write]; exact hrd_lt
        · show some _ = _
          rw [Heap.get_write_self _ _ hrd_lt]
          simp [mergeEntriesV, entriesLenV, hlen]
    · have hget : (h.get rs).length = 0 := Nat.eq_zero_of_not_pos hlen
      have heq : mergeMapField h dst (some rs) = (h, dst) := by
        simp only [mergeMapField]
        rw [if_neg hlen]
      rw [heq]
      refine ⟨fun r _ _ => rfl, Nat.le_refl _, Or.inl rfl, hdst, ?_⟩
      simp [mergeEntriesV, entriesLenV, hget]

theorem refOk.mono {h h' : Heap} {x : Option Nat} (hx : refOk h x) (hsz : h.size ≤ h'.size) :
    refOk h' x := by
  cases x with
  | none => trivial
  | some r => exact Nat.lt_of_lt_of_le hx hsz

/-- The scalar-field part of Config.Merge. -/
def scalarMerge (cfg o : Config) : Config :=
  { cfg with
    ClientConfig := if o.ClientConfig.isSome then o.ClientConfig else cfg.ClientConfig,
    URL := if o.URL.length > 0 then o.URL else cfg.URL,
    Timeout := if o.Timeout > 0 then o.Timeout else cfg.Timeout,
    DefaultSeverity := if o.DefaultSeverity.length > 0 then o.DefaultSeverity else cfg.DefaultSeverity }

/-- Config.Merge in closed form: scalar updates plus the two map blocks. -/
theorem Config.Merge_eq (h : Heap) (cfg o : Config) :
    Config.Merge h cfg o =
      ((mergeMapField (mergeMapField h cfg.ExtraLabels o.ExtraLabels).1
          cfg.ExtraAnnotations o.ExtraAnnotations).1,
       { scalarMerge cfg o with
         ExtraLabels := (mergeMapField h cfg.ExtraLabels o.ExtraLabels).2,
         ExtraAnnotations := (mergeMapField (mergeMapField h cfg.ExtraLabels o.ExtraLabels).1
           cfg.ExtraAnnotations o.ExtraAnnotations).2 }) := by
  unfold Config.Merge scalarMerge
  split_ifs <;> rfl

/-- The complete behavior of Config.Merge when the receiver's two maps do not
alias each other and the override's annotation map does not alias the
receiver's label map (always true for the configs GetConfig builds): the heap
changes only at the receiver's map cells or fresh cells, the receiver's map
references are preserved or freshly allocated, and at value level the result
is exactly the value-level merge of receiver and override as read before the
call. -/
theorem Merge_facts (h : Heap) (cfg o : Config)
    (hcEL : refOk h cfg.ExtraLabels) (hcEA : refOk h cfg.ExtraAnnotations)
    (hoEA : refOk h o.ExtraAnnotations)
    (hA1 : cfg.ExtraLabels = none ∨ cfg.ExtraLabels ≠ cfg.ExtraAnnotations)
    (hA2 : o.ExtraAnnotations = none ∨ o.ExtraAnnotations ≠ cfg.ExtraLabels) :
    (∀ r, r < h.size → cfg.ExtraLabels ≠ some r → cfg.ExtraAnnotations ≠ some r →
        (Config.Merge h cfg o).1.get r = h.get r)
    ∧ h.size ≤ (Config.Merge h cfg o).1.size
    ∧ ((Config.Merge h cfg o).2.ExtraLabels = cfg.ExtraLabels ∨
        (cfg.ExtraLabels = none ∧ (Config.Merge h cfg o).2.ExtraLabels = some h.size))
    ∧ ((Config.Merge h cfg o).2.ExtraAnnotations = cfg.ExtraAnnotations ∨
        (cfg.ExtraAnnotations = none ∧
          ∃ rf, h.size ≤ rf ∧ (Config.Merge h cfg o).2.ExtraAnnotations = some rf))
    ∧ refOk (Config.Merge h cfg o).1 (Config.Merge h cfg o).2.ExtraLabels
    ∧ refOk (Config.Merge h cfg o).1 (Config.Merge h cfg o).2.ExtraAnnotations
    ∧ ((Config.Merge h cfg o).2.ExtraLabels = none ∨
        (Config.Merge h cfg o).2.ExtraLabels ≠ (Config.Merge h cfg o).2.ExtraAnnotations)
    ∧ (Config.Merge h cfg o).2.toV (Config.Merge h cfg o).1 = (cfg.toV h).mergeV (o.toV h) := by
  obtain ⟨f1_frame, f1_size, f1_ref, f1_ok, f1_content⟩ :=
    mergeMapField_facts h cfg.ExtraLabels o.ExtraLabels hcEL
  obtain ⟨f2_frame, f2_size, f2_ref, f2_ok, f2_content⟩ :=
    mergeMapField_facts (mergeMapField h cfg.ExtraLabels o.ExtraLabels).1
      cfg.ExtraAnnotations o.ExtraAnnotations (hcEA.mono f1_size)
  rw [Config.Merge_eq]
  dsimp only
  -- the receiver's annotation reference never equals the result of phase one
  have hEA_ne_pl2 : ∀ rr, (mergeMapField h cfg.ExtraLabels o.ExtraLabels).2 = some rr →
      cfg.ExtraAnnotations ≠ some rr := by
    intro rr hrr hcon
    rcases f1_ref with href | ⟨hnone, href, _⟩
    · rw [href] at hrr
      rcases hA1 with h1 | h1
      · rw [h1] at hrr; exact Option.noConfusion hrr
      · exact h1 (hrr.trans hcon.symm)
    · rw [href] at hrr
      cases hrr
      rw [hcon] at hcEA
      exact Nat.lt_irrefl _ hcEA
  -- phase-one result cells are untouched by phase two
  have hpl2_stable : ((mergeMapField h cfg.ExtraLabels o.ExtraLabels).2.map
        (mergeMapField (mergeMapField h cfg.ExtraLabels o.ExtraLabels).1
          cfg.ExtraAnnotations o.ExtraAnnotations).1.get)
      = ((mergeMapField h cfg.ExtraLabels o.ExtraLabels).2.map
          (mergeMapField h cfg.ExtraLabels o.ExtraLabels).1.get) := by
    cases hpl2 : (mergeMapField h cfg.ExtraLabels o.ExtraLabels).2 with
    | none => rfl
    | some rr =>
      have hrr_lt : rr < (mergeMapField h cfg.ExtraLabels o.ExtraLabels).1.size := by
        have := f1_ok; rw [hpl2] at this; exact this
      simp only [Option.map]
      rw [f2_frame rr hrr_lt (hEA_ne_pl2 rr hpl2)]
  -- reads of valid references not aliased to the receiver's label map are
  -- unchanged by phase one
  have hread_EA : cfg.ExtraAnnotations.map
        (mergeMapField h cfg.ExtraLabels o.ExtraLabels).1.get
      = cfg.ExtraAnnotations.map h.get := by
    cases hEA : cfg.ExtraAnnotations with
    | none => rfl
    | some ra =>
      have hra_lt : ra < h.size := by have := hcEA; rw [hEA] at this; exact this
      have hne : cfg.ExtraLabels ≠ some ra := by
        rcases hA1 with h1 | h1
        · rw [h1]; exact fun hc => Option.noConfusion hc
        · rw [hEA] at h1; exact fun hc => h1 hc
      simp only [Option.map]
      rw [f1_frame ra hra_lt hne]
  have hread_oEA : o.ExtraAnnotations.map
        (mergeMapField h cfg.ExtraLabels o.ExtraLabels).1.get
      = o.ExtraAnnotations.map h.get := by
    cases hEA : o.ExtraAnnotations with
    | none => rfl
    | some rb =>
      have hrb_lt : rb < h.size := by have := hoEA; rw [hEA] at this; exact this
      have hne : cfg.ExtraLabels ≠ some rb := by
        rcases hA2 with h2 | h2
        · rw [h2] at hEA; exact Option.noConfusion hEA
        · rw [hEA] at h2; exact fun hc => h2 (hc ▸ rfl)
      simp only [Option.map]
      rw [f1_frame rb hrb_lt hne]
  refine ⟨?_, ?_, ?_, ?_, ?_, ?_, ?_, ?_⟩
  · -- frame
    intro r hr hnEL hnEA
    rw [f2_frame r (Nat.lt_of_lt_of_le hr f1_size) hnEA]
    exact f1_frame r hr hnEL
  · exact Nat.le_trans f1_size f2_size
  · -- label reference characterization
    rcases f1_ref with href | ⟨hnone, href, _⟩
    · exact Or.inl href
    · exact Or.inr ⟨hnone, href⟩
  · -- annotation reference characterization
    rcases f2_ref with href | ⟨hnone, href, _⟩
    · exact Or.inl href
    · exact Or.inr ⟨hnone, ⟨(mergeMapField h cfg.ExtraLabels o.ExtraLabels).1.size,
        f1_size, href⟩⟩
  · exact f1_ok.mono f2_size
  · exact f2_ok
  · -- the two result references never alias
    rcases f1_ref with href1 | ⟨hnone1, href1, hsz1⟩
    · rw [href1]
      rcases f2_ref with href2 | ⟨hnone2, href2, _⟩
      · rw [href2]
        exact hA1
      · rw [href2]
        cases hEL : cfg.ExtraLabels with
        | none => exact Or.inl rfl
        | some rl =>
          refine Or.inr ?_
          have hrl_lt : rl < h.size := by have := hcEL; rw [hEL] at this; exact this
          have hrl_lt2 := Nat.lt_of_lt_of_le hrl_lt (hEL ▸ f1_size)
          intro hc
          injection hc with hc'
          exact Nat.ne_of_lt hrl_lt2 hc'
    · rw [href1]
      refine Or.inr ?_
      rcases f2_ref with href2 | ⟨hnone2, href2, _⟩
      · rw [href2]
        cases hEA : cfg.ExtraAnnotations with
        | none => exact fun hc => Option.noConfusion hc
        | some ra =>
          have hra_lt : ra < h.size := by have := hcEA; rw [hEA] at this; exact this
          intro hc
          injection hc with hc'
          exact Nat.ne_of_lt hra_lt hc'.symm
      · rw [href2]
        intro hc
        injection hc with hc'
        rw [hsz1] at hc'
        exact Nat.ne_of_lt (Nat.lt_succ_self _) hc'
  · -- value-level contents
    simp [Config.toV, ConfigV.mergeV, scalarMerge, hpl2_stable, f1_content, f2_content,
      hread_EA, hread_oEA]

/-- Facts about the deep copy of one map reference: old cells are untouched,
a nil reference stays nil, and a non-nil reference becomes a fresh cell
holding an entry-by-entry copy. -/
theorem deepCopyMap_facts (h : Heap) (m : Option Nat) :
    (∀ r, r < h.size → (deepCopyMap h m).1.get r = h.get r)
    ∧ h.size ≤ (deepCopyMap h m).1.size
    ∧ ((m = none ∧ (deepCopyMap h m).1 = h ∧ (deepCopyMap h m).2 = none) ∨
       (∃ r, m = some r ∧ (deepCopyMap h m).2 = some h.size
         ∧ (deepCopyMap h m).1.size = h.size + 1
         ∧ (deepCopyMap h m).1.get h.size = writeAll [] (h.get r))) := by
  cases m with
  | none =>
    exact ⟨fun r _ => rfl, Nat.le_refl _, Or.inl ⟨rfl, rfl, rfl⟩⟩
  | some r =>
    refine ⟨?_, ?_, Or.inr ⟨r, rfl, by rw [deepCopyMap, Heap.alloc_ref], ?_, ?_⟩⟩
    · intro r' hr'
      show (h.alloc _).1.get r' = h.get r'
      exact h.get_alloc_of_lt _ hr'
    · show h.size ≤ (h.alloc _).1.size
      rw [h.size_alloc]
      exact Nat.le_succ _
    · show (h.alloc _).1.size = h.size + 1
      exact h.size_alloc _
    · show (h.alloc _).1.get h.size = writeAll [] (h.get r)
      exact h.get_alloc_self _

/-- Validate commutes with the value-level view: it touches only the scalar
fields, identically on both levels. -/
theorem Validate_toV (h : Heap) (c : Config) :
    (c.Validate.1.toV h, c.Validate.2)
      = (((c.toV h).validateV).1, ((c.toV h).validateV).2) := by
  unfold Config.Validate ConfigV.validateV Config.toV
  dsimp only
  split_ifs <;> rfl

/-- Validate leaves the map references of its receiver unchanged. -/
theorem Validate_refs (c : Config) :
    c.Validate.1.ExtraLabels = c.ExtraLabels
    ∧ c.Validate.1.ExtraAnnotations = c.ExtraAnnotations := by
  unfold Config.Validate
  dsimp only
  split_ifs <;> exact ⟨rfl, rfl⟩

/-- The invariant carried by the working config of GetConfig, relative to the
heap h0 the call started with: its map references are valid, live at or
above h0.size, and never alias each other. -/
def WorkCfg (h0 h : Heap) (c : Config) : Prop :=
  refOk h c.ExtraLabels ∧ refOk h c.ExtraAnnotations ∧
  (∀ r, c.ExtraLabels = some r → h0.size ≤ r) ∧
  (∀ r, c.ExtraAnnotations = some r → h0.size ≤ r) ∧
  (c.ExtraLabels = none ∨ c.ExtraLabels ≠ c.ExtraAnnotations)

/-- Merging an override whose references are valid in h0 into a working
config preserves the invariant and acts as the value-level merge. -/
theorem Merge_inv (h0 h : Heap) (cfg o : Config)
    (hext : HeapExt h0 h) (hwork : WorkCfg h0 h cfg) (ho : CfgOk h0 o) :
    HeapExt h0 (Config.Merge h cfg o).1
    ∧ WorkCfg h0 (Config.Merge h cfg o).1 (Config.Merge h cfg o).2
    ∧ (Config.Merge h cfg o).2.toV (Config.Merge h cfg o).1 = (cfg.toV h).mergeV (o.toV h0) := by
  obtain ⟨hcEL, hcEA, hloEL, hloEA, hA1⟩ := hwork
  have hoEA : refOk h o.ExtraAnnotations := ho.2.mono hext.1
  have hA2 : o.ExtraAnnotations = none ∨ o.ExtraAnnotations ≠ cfg.ExtraLabels := by
    cases hoa : o.ExtraAnnotations with
    | none => exact Or.inl rfl
    | some rb =>
      refine Or.inr ?_
      have hrb : rb < h0.size := by have := ho.2; rw [hoa] at this; exact this
      intro hc
      have := hloEL rb hc.symm
      exact Nat.lt_irrefl _ (Nat.lt_of_lt_of_le hrb this)
  obtain ⟨m_frame, m_size, m_refEL, m_refEA, m_okEL, m_okEA, m_alias, m_toV⟩ :=
    Merge_facts h cfg o hcEL hcEA hoEA hA1 hA2
  have hext' : HeapExt h0 (Config.Merge h cfg o).1 := by
    refine ⟨Nat.le_trans hext.1 m_size, ?_⟩
    intro r hr
    have hfr : (Config.Merge h cfg o).1.get r = h.get r := by
      refine m_frame r (Nat.lt_of_lt_of_le hr hext.1) ?_ ?_
      · intro hc
        exact Nat.lt_irrefl _ (Nat.lt_of_lt_of_le hr (hloEL r hc))
      · intro hc
        exact Nat.lt_irrefl _ (Nat.lt_of_lt_of_le hr (hloEA r hc))
    exact hfr.trans (hext.2 r hr)
  refine ⟨hext', ⟨m_okEL, m_okEA, ?_, ?_, m_alias⟩, ?_⟩
  · intro r hc
    rcases m_refEL with href | ⟨_, href⟩
    · rw [href] at hc; exact hloEL r hc
    · rw [href] at hc
      injection hc with hc'
      rw [← hc']
      exact hext.1
  · intro r hc
    rcases m_refEA with href | ⟨_, ⟨rf, hrf, href⟩⟩
    · rw [href] at hc; exact hloEA r hc
    · rw [href] at hc
      injection hc with hc'
      rw [← hc']
      exact Nat.le_trans hext.1 hrf
  · rw [m_toV, Config.toV_of_ext o ho hext]

/-- The group-override loop preserves the working-config invariant and, at
value level, merges exactly the first override whose Group equals the input
group. -/
theorem applyGroupOverrides_facts (h0 : Heap) (group : String) (os : List Override)
    (h : Heap) (cfg : Config)
    (hos : ∀ o ∈ os, CfgOk h0 o.Config)
    (hext : HeapExt h0 h) (hwork : WorkCfg h0 h cfg) :
    HeapExt h0 (applyGroupOverrides h cfg group os).1
    ∧ WorkCfg h0 (applyGroupOverrides h cfg group os).1 (applyGroupOverrides h cfg group os).2
    ∧ ((applyGroupOverrides h cfg group os).2.toV (applyGroupOverrides h cfg group os).1
        = match os.find? (fun o => group == o.Group) with
          | some o => (cfg.toV h).mergeV (o.Config.toV h0)
          | none => cfg.toV h) := by
  induction os with
  | nil => exact ⟨hext, hwork, rfl⟩
  | cons o rest ih =>
    by_cases hg : group = o.Group
    · have heq : applyGroupOverrides h cfg group (o :: rest) = Config.Merge h cfg o.Config := by
        simp [applyGroupOverrides, hg]
      have hfind : (o :: rest).find? (fun o' => group == o'.Group) = some o :=
        List.find?_cons_of_pos _ (by simp [hg])
      rw [heq, hfind]
      exact Merge_inv h0 h cfg o.Config hext hwork (hos o (by simp))
    · have heq : applyGroupOverrides h cfg group (o :: rest)
          = applyGroupOverrides h cfg group rest := by
        simp [applyGroupOverrides, hg]
      have hfind : (o :: rest).find? (fun o' => group == o'.Group)
          = rest.find? (fun o' => group == o'.Group) :=
        List.find?_cons_of_neg _ (by simp [hg])
      rw [heq, hfind]
      exact ih (fun o' ho' => hos o' (by simp [ho']))

/-- Unmarshalling the alert-level fragment only allocates fresh cells: the
old heap is untouched, the fragment's references are fresh and valid, and
reading the fragment back gives the parsed document. -/
theorem allocConfigFragment_facts (h : Heap) (v : ConfigV) :
    HeapExt h (allocConfigFragment h v).1
    ∧ CfgOk (allocConfigFragment h v).1 (allocConfigFragment h v).2
    ∧ (∀ r, (allocConfigFragment h v).2.ExtraLabels = some r → h.size ≤ r)
    ∧ (∀ r, (allocConfigFragment h v).2.ExtraAnnotations = some r → h.size ≤ r)
    ∧ (allocConfigFragment h v).2.toV (allocConfigFragment h v).1 = v := by
  obtain ⟨vu, vt, vs, vel, vea, vcc⟩ := v
  cases vel with
  | none =>
    cases vea with
    | none =>
      dsimp only [allocConfigFragment]
      refine ⟨HeapExt.refl h, ⟨trivial, trivial⟩, ?_, ?_, ?_⟩
      · intro r hc; exact Option.noConfusion hc
      · intro r hc; exact Option.noConfusion hc
      · simp [Config.toV]
    | some es =>
      have hsz : (h.alloc es).1.size = h.size + 1 := h.size_alloc es
      dsimp only [allocConfigFragment]
      refine ⟨⟨by rw [hsz]; exact Nat.le_succ _, fun r hr => h.get_alloc_of_lt es hr⟩,
        ⟨trivial, ?_⟩, ?_, ?_, ?_⟩
      · show (h.alloc es).2 < _
        rw [Heap.alloc_ref, hsz]; exact Nat.lt_succ_self _
      · intro r hc; exact Option.noConfusion hc
      · intro r hc
        injection hc with hc'
        rw [← hc', Heap.alloc_ref]
      · simp [Config.toV, Heap.alloc_ref, h.get_alloc_self es]
  | some es =>
    have hsz : (h.alloc es).1.size = h.size + 1 := h.size_alloc es
    cases vea with
    | none =>
      dsimp only [allocConfigFragment]
      refine ⟨⟨by rw [hsz]; exact Nat.le_succ _, fun r hr => h.get_alloc_of_lt es hr⟩,
        ⟨?_, trivial⟩, ?_, ?_, ?_⟩
      · show (h.alloc es).2 < _
        rw [Heap.alloc_ref, hsz]; exact Nat.lt_succ_self _
      · intro r hc
        injection hc with hc'
        rw [← hc', Heap.alloc_ref]
      · intro r hc; exact Option.noConfusion hc
      · simp [Config.toV, Heap.alloc_ref, h.get_alloc_self es]
    | some es2 =>
      have hsz2 : ((h.alloc es).1.alloc es2).1.size = h.size + 2 := by
        rw [(h.alloc es).1.size_alloc es2, hsz]
      have hget1 : ((h.alloc es).1.alloc es2).1.get h.size = es := by
        rw [show h.size = (h.alloc es).2 from (Heap.alloc_ref h es).symm]
        rw [(h.alloc es).1.get_alloc_of_lt es2 (by rw [Heap.alloc_ref, hsz]; exact Nat.lt_succ_self _)]
        rw [Heap.alloc_ref]
        exact h.get_alloc_self es
      have hget2 : ((h.alloc es).1.alloc es2).1.get (h.size + 1) = es2 := by
        have := (h.alloc es).1.get_alloc_self es2
        rw [hsz] at this
        exact this
      dsimp only [allocConfigFragment]
      refine ⟨⟨by rw [hsz2]; exact Nat.le_add_right _ _, ?_⟩, ⟨?_, ?_⟩, ?_, ?_, ?_⟩
      · intro r hr
        rw [(h.alloc es).1.get_alloc_of_lt es2 (by rw [hsz]; exact Nat.lt_succ_of_lt hr)]
        exact h.get_alloc_of_lt es hr
      · show (h.alloc es).2 < _
        rw [Heap.alloc_ref, hsz2]
        exact Nat.lt_of_lt_of_le (Nat.lt_succ_self _) (Nat.le_succ _)
      · show ((h.alloc es).1.alloc es2).2 < _
        rw [Heap.alloc_ref, hsz, hsz2]
        exact Nat.lt_succ_self _
      · intro r hc
        injection hc with hc'
        rw [← hc', Heap.alloc_ref]
      · intro r hc
        injection hc with hc'
        rw [← hc', Heap.alloc_ref, hsz]
        exact Nat.le_succ _
      · simp only [Config.toV, Heap.alloc_ref, hsz]
        simp [hget1, hget2]

/-- The cell behind one possibly-nil reference is duplicate-free (true of
every real Go map). -/
def mapWf (h : Heap) : Option Nat → Prop
  | none => True
  | some r => distinctKeys (h.get r)

instance (h : Heap) (o : Option Nat) : Decidable (mapWf h o) := by
  cases o <;> unfold mapWf <;> infer_instance

/-- The provider state GetConfig starts from: valid references and
duplicate-free default-config cells. -/
def ProviderWf (h : Heap) (p : AlertProvider) : Prop :=
  CfgOk h p.DefaultConfig
  ∧ mapWf h p.DefaultConfig.ExtraLabels
  ∧ mapWf h p.DefaultConfig.ExtraAnnotations
  ∧ ∀ o ∈ p.Overrides, CfgOk h o.Config

instance (h : Heap) (p : AlertProvider) : Decidable (ProviderWf h p) := by
  unfold ProviderWf; infer_instance

/-- The deep-copy stage of GetConfig establishes the working-config
invariant and preserves the value of the default config. -/
theorem copyStage_facts (h : Heap) (c : Config)
    (hok : CfgOk h c) (hwl : mapWf h c.ExtraLabels) (hwa : mapWf h c.ExtraAnnotations) :
    HeapExt h (deepCopyMap (deepCopyMap h c.ExtraLabels).1 c.ExtraAnnotations).1
    ∧ WorkCfg h (deepCopyMap (deepCopyMap h c.ExtraLabels).1 c.ExtraAnnotations).1
        { c with ExtraLabels := (deepCopyMap h c.ExtraLabels).2,
                 ExtraAnnotations := (deepCopyMap (deepCopyMap h c.ExtraLabels).1 c.ExtraAnnotations).2 }
    ∧ Config.toV (deepCopyMap (deepCopyMap h c.ExtraLabels).1 c.ExtraAnnotations).1
        { c with ExtraLabels := (deepCopyMap h c.ExtraLabels).2,
                 ExtraAnnotations := (deepCopyMap (deepCopyMap h c.ExtraLabels).1 c.ExtraAnnotations).2 }
      = c.toV h := by
  obtain ⟨d1_frame, d1_size, d1_cases⟩ := deepCopyMap_facts h c.ExtraLabels
  obtain ⟨d2_frame, d2_size, d2_cases⟩ :=
    deepCopyMap_facts (deepCopyMap h c.ExtraLabels).1 c.ExtraAnnotations
  have hext1 : HeapExt h (deepCopyMap h c.ExtraLabels).1 := ⟨d1_size, d1_frame⟩
  have hext2 : HeapExt (deepCopyMap h c.ExtraLabels).1
      (deepCopyMap (deepCopyMap h c.ExtraLabels).1 c.ExtraAnnotations).1 := ⟨d2_size, d2_frame⟩
  have hext : HeapExt h (deepCopyMap (deepCopyMap h c.ExtraLabels).1 c.ExtraAnnotations).1 :=
    hext1.trans hext2
  -- label copy characterization
  have hEL : ((deepCopyMap h c.ExtraLabels).2 = none ∧ c.ExtraLabels = none) ∨
      (∃ r, c.ExtraLabels = some r ∧ (deepCopyMap h c.ExtraLabels).2 = some h.size
        ∧ (deepCopyMap h c.ExtraLabels).1.size = h.size + 1
        ∧ (deepCopyMap (deepCopyMap h c.ExtraLabels).1 c.ExtraAnnotations).1.get h.size
            = h.get r) := by
    rcases d1_cases with ⟨hm, hh, hres⟩ | ⟨r, hm, hres, hsz, hget⟩
    · exact Or.inl ⟨hres, hm⟩
    · refine Or.inr ⟨r, hm, hres, hsz, ?_⟩
      rw [d2_frame h.size (by rw [hsz]; exact Nat.lt_succ_self _), hget]
      apply writeAll_nil
      have := hwl
      rw [hm] at this
      exact this
  have hEA : ((deepCopyMap (deepCopyMap h c.ExtraLabels).1 c.ExtraAnnotations).2 = none
        ∧ c.ExtraAnnotations = none) ∨
      (∃ r2, c.ExtraAnnotations = some r2
        ∧ (deepCopyMap (deepCopyMap h c.ExtraLabels).1 c.ExtraAnnotations).2
            = some (deepCopyMap h c.ExtraLabels).1.size
        ∧ (deepCopyMap (deepCopyMap h c.ExtraLabels).1 c.ExtraAnnotations).1.size
            = (deepCopyMap h c.ExtraLabels).1.size + 1
        ∧ (deepCopyMap (deepCopyMap h c.ExtraLabels).1 c.ExtraAnnotations).1.get
            (deepCopyMap h c.ExtraLabels).1.size = h.get r2) := by
    rcases d2_cases with ⟨hm, hh, hres⟩ | ⟨r2, hm, hres, hsz, hget⟩
    · exact Or.inl ⟨hres, hm⟩
    · refine Or.inr ⟨r2, hm, hres, hsz, ?_⟩
      rw [hget]
      have hr2 : r2 < h.size := by
        have := hok.2; rw [hm] at this; exact this
      rw [d1_frame r2 hr2]
      apply writeAll_nil
      have := hwa
      rw [hm] at this
      exact this
  refine ⟨hext, ⟨?_, ?_, ?_, ?_, ?_⟩, ?_⟩
  · -- refOk of the copied label reference
    rcases hEL with ⟨hres, _⟩ | ⟨r, _, hres, hsz, _⟩
    · rw [hres]; trivial
    · rw [hres]
      show h.size < _
      exact Nat.lt_of_lt_of_le (by rw [hsz]; exact Nat.lt_succ_self _) d2_size
  · -- refOk of the copied annotation reference
    rcases hEA with ⟨hres, _⟩ | ⟨r2, _, hres, hsz, _⟩
    · rw [hres]; trivial
    · rw [hres]
      show (deepCopyMap h c.ExtraLabels).1.size < _
      rw [hsz]; exact Nat.lt_succ_self _
  · -- fresh lower bound for labels
    intro r hc
    rcases hEL with ⟨hres, _⟩ | ⟨_, _, hres, _, _⟩
    · rw [hres] at hc; exact Option.noConfusion hc
    · rw [hres] at hc; injection hc with hc'; rw [← hc']
  · -- fresh lower bound for annotations
    intro r hc
    rcases hEA with ⟨hres, _⟩ | ⟨_, _, hres, _, _⟩
    · rw [hres] at hc; exact Option.noConfusion hc
    · rw [hres] at hc; injection hc with hc'; rw [← hc']; exact d1_size
  · -- the two copies never alias
    rcases hEL with ⟨hres, _⟩ | ⟨r, _, hres, hsz, _⟩
    · rw [hres]; exact Or.inl rfl
    · rw [hres]
      rcases hEA with ⟨hres2, _⟩ | ⟨r2, _, hres2, _, _⟩
      · rw [hres2]; exact Or.inr (fun hc => Option.noConfusion hc)
      · rw [hres2]
        refine Or.inr ?_
        intro hc
        injection hc with hc'
        rw [hsz] at hc'
        exact Nat.ne_of_lt (Nat.lt_succ_self _) hc'
  · -- value preservation
    unfold Config.toV
    dsimp only
    congr 1
    · rcases hEL with ⟨hres, hm⟩ | ⟨r, hm, hres, _, hget⟩
      · rw [hres, hm]
        rfl
      · rw [hres]
        show some _ = _
        rw [hget, hm]
        rfl
    · rcases hEA with ⟨hres, hm⟩ | ⟨r2, hm, hres, _, hget⟩
      · rw [hres, hm]
        rfl
      · rw [hres]
        show some _ = _
        rw [hget, hm]
        rfl

/-- The master refinement: for a well-formed provider state, GetConfig
computes (at value level) exactly the spec's pipeline getConfigV, never
touches any pre-existing heap cell, and returns a config whose maps are
fresh cells allocated by the call itself. -/
theorem GetConfig_facts (h : Heap) (p : AlertProvider) (group : String) (a : Alert)
    (hwf : ProviderWf h p) :
    ((p.GetConfig h group a).2.map (fun ce => (ce.1.toV (p.GetConfig h group a).1, ce.2)))
      = getConfigV (p.toV h) group a.providerOverride
    ∧ HeapExt h (p.GetConfig h group a).1
    ∧ (∀ cfg err, (p.GetConfig h group a).2 = some (cfg, err) →
        (∀ r, cfg.ExtraLabels = some r → h.size ≤ r ∧ r < (p.GetConfig h group a).1.size) ∧
        (∀ r, cfg.ExtraAnnotations = some r → h.size ≤ r ∧ r < (p.GetConfig h group a).1.size)) := by
  obtain ⟨hok, hwl, hwa, hos⟩ := hwf
  obtain ⟨cs_ext, cs_work, cs_toV⟩ := copyStage_facts h p.DefaultConfig hok hwl hwa
  obtain ⟨g_ext, g_work, g_toV⟩ := applyGroupOverrides_facts h group p.Overrides
    (deepCopyMap (deepCopyMap h p.DefaultConfig.ExtraLabels).1 p.DefaultConfig.ExtraAnnotations).1
    { p.DefaultConfig with
      ExtraLabels := (deepCopyMap h p.DefaultConfig.ExtraLabels).2,
      ExtraAnnotations :=
        (deepCopyMap (deepCopyMap h p.DefaultConfig.ExtraLabels).1 p.DefaultConfig.ExtraAnnotations).2 }
    hos cs_ext cs_work
  rw [cs_toV] at g_toV
  -- shorthand for the post-loop state
  generalize hpg : applyGroupOverrides
      (deepCopyMap (deepCopyMap h p.DefaultConfig.ExtraLabels).1 p.DefaultConfig.ExtraAnnotations).1
      { p.DefaultConfig with
        ExtraLabels := (deepCopyMap h p.DefaultConfig.ExtraLabels).2,
        ExtraAnnotations :=
          (deepCopyMap (deepCopyMap h p.DefaultConfig.ExtraLabels).1 p.DefaultConfig.ExtraAnnotations).2 }
      group p.Overrides = pg at g_ext g_work g_toV
  obtain ⟨pgh, pgc⟩ := pg
  -- the value of the config after the group phase
  have hval : pgc.toV pgh
      = (match p.Overrides.find? (fun o => group == o.Group) with
         | some o => (p.DefaultConfig.toV h).mergeV (o.Config.toV h)
         | none => p.DefaultConfig.toV h) := g_toV
  -- the value-level pipeline in terms of the same find?
  have hgetV : getConfigV (p.toV h) group a.providerOverride
      = (match a.providerOverride with
         | none => some (pgc.toV pgh).validateV
         | some (Except.error _) => none
         | some (Except.ok v) => some ((pgc.toV pgh).mergeV v).validateV) := by
    rw [hval]
    unfold getConfigV AlertProvider.toV
    dsimp only
    rw [List.find?_map]
    have hpred : ((fun o : OverrideV => group == o.Group) ∘ Override.toV h)
        = fun o : Override => group == o.Group := by
      funext o
      rfl
    rw [hpred]
    cases hfind : p.Overrides.find? (fun o => group == o.Group) with
    | none => rfl
    | some o => rfl
  rw [hgetV]
  have hGetConfig : p.GetConfig h group a
      = (match a.providerOverride with
         | none => (pgh, some pgc.Validate)
         | some (Except.error _) => (pgh, none)
         | some (Except.ok v) =>
           ((Config.Merge (allocConfigFragment pgh v).1 pgc (allocConfigFragment pgh v).2).1,
            some (Config.Merge (allocConfigFragment pgh v).1 pgc
              (allocConfigFragment pgh v).2).2.Validate)) := by
    unfold AlertProvider.GetConfig
    dsimp only
    rw [hpg]
  cases hblob : a.providerOverride with
  | none =>
    rw [hblob] at hGetConfig
    rw [hGetConfig]
    dsimp only
    refine ⟨?_, g_ext, ?_⟩
    · show some (Config.toV pgh pgc.Validate.1, pgc.Validate.2)
          = some (Config.toV pgh pgc).validateV
      exact congrArg some (Validate_toV pgh pgc)
    · intro cfg err hce
      injection hce with hce'
      have hcfg : cfg = pgc.Validate.1 := (congrArg Prod.fst hce').symm
      obtain ⟨hrefs1, hrefs2⟩ := Validate_refs pgc
      obtain ⟨wEL, wEA, wlo1, wlo2, _⟩ := g_work
      constructor
      · intro r hr
        rw [hcfg, hrefs1] at hr
        refine ⟨wlo1 r hr, ?_⟩
        have := wEL; rw [hr] at this; exact this
      · intro r hr
        rw [hcfg, hrefs2] at hr
        refine ⟨wlo2 r hr, ?_⟩
        have := wEA; rw [hr] at this; exact this
  | some eo =>
    cases eo with
    | error msg =>
      rw [hblob] at hGetConfig
      rw [hGetConfig]
      exact ⟨rfl, g_ext, fun cfg err hce => Option.noConfusion hce⟩
    | ok v =>
      rw [hblob] at hGetConfig
      rw [hGetConfig]
      dsimp only
      obtain ⟨f_ext, f_ok, f_loEL, f_loEA, f_toV⟩ := allocConfigFragment_facts pgh v
      obtain ⟨wEL, wEA, wlo1, wlo2, wal⟩ := g_work
      have hA2 : (allocConfigFragment pgh v).2.ExtraAnnotations = none ∨
          (allocConfigFragment pgh v).2.ExtraAnnotations ≠ pgc.ExtraLabels := by
        cases hfa : (allocConfigFragment pgh v).2.ExtraAnnotations with
        | none => exact Or.inl rfl
        | some rb =>
          refine Or.inr ?_
          have hlo := f_loEA rb hfa
          intro hc
          have := wEL; rw [← hc] at this
          exact Nat.lt_irrefl _ (Nat.lt_of_lt_of_le this hlo)
      obtain ⟨m_frame, m_size, m_refEL, m_refEA, m_okEL, m_okEA, m_alias, m_toV⟩ :=
        Merge_facts (allocConfigFragment pgh v).1 pgc (allocConfigFragment pgh v).2
          (wEL.mono f_ext.1) (wEA.mono f_ext.1) f_ok.2 wal hA2
      refine ⟨?_, ?_, ?_⟩
      · -- value equality
        have hXV : (Config.Merge (allocConfigFragment pgh v).1 pgc
              (allocConfigFragment pgh v).2).2.toV
              (Config.Merge (allocConfigFragment pgh v).1 pgc (allocConfigFragment pgh v).2).1
            = (pgc.toV pgh).mergeV v := by
          rw [m_toV, f_toV, Config.toV_of_ext pgc ⟨wEL, wEA⟩ f_ext]
        have hv := Validate_toV
          (Config.Merge (allocConfigFragment pgh v).1 pgc (allocConfigFragment pgh v).2).1
          (Config.Merge (allocConfigFragment pgh v).1 pgc (allocConfigFragment pgh v).2).2
        rw [hXV] at hv
        show some (Config.toV
            (Config.Merge (allocConfigFragment pgh v).1 pgc (allocConfigFragment pgh v).2).1
            (Config.Merge (allocConfigFragment pgh v).1 pgc
              (allocConfigFragment pgh v).2).2.Validate.1,
          (Config.Merge (allocConfigFragment pgh v).1 pgc
            (allocConfigFragment pgh v).2).2.Validate.2)
          = some ((Config.toV pgh pgc).mergeV v).validateV
        exact congrArg some hv
      · -- heap extension
        refine ⟨Nat.le_trans g_ext.1 (Nat.le_trans f_ext.1 m_size), ?_⟩
        intro r hr
        have hr1 : r < (allocConfigFragment pgh v).1.size :=
          Nat.lt_of_lt_of_le hr (Nat.le_trans g_ext.1 f_ext.1)
        have hfr : (Config.Merge (allocConfigFragment pgh v).1 pgc
            (allocConfigFragment pgh v).2).1.get r = (allocConfigFragment pgh v).1.get r := by
          refine m_frame r hr1 ?_ ?_
          · intro hc
            exact Nat.lt_irrefl _ (Nat.lt_of_lt_of_le hr (wlo1 r hc))
          · intro hc
            exact Nat.lt_irrefl _ (Nat.lt_of_lt_of_le hr (wlo2 r hc))
        rw [hfr, f_ext.2 r (Nat.lt_of_lt_of_le hr g_ext.1), g_ext.2 r hr]
      · -- freshness of the returned references
        intro cfg err hce
        injection hce with hce'
        have hcfg : cfg = (Config.Merge (allocConfigFragment pgh v).1 pgc
            (allocConfigFragment pgh v).2).2.Validate.1 := (congrArg Prod.fst hce').symm
        obtain ⟨hrefs1, hrefs2⟩ := Validate_refs
          (Config.Merge (allocConfigFragment pgh v).1 pgc (allocConfigFragment pgh v).2).2
        constructor
        · intro r hr
          rw [hcfg, hrefs1] at hr
          have hup : r < (Config.Merge (allocConfigFragment pgh v).1 pgc
              (allocConfigFragment pgh v).2).1.size := by
            have := m_okEL; rw [hr] at this; exact this
          refine ⟨?_, hup⟩
          rcases m_refEL with href | ⟨_, href⟩
          · rw [href] at hr
            exact wlo1 r hr
          · rw [href] at hr
            injection hr with hr'
            rw [← hr']
            exact Nat.le_trans g_ext.1 f_ext.1
        · intro r hr
          rw [hcfg, hrefs2] at hr
          have hup : r < (Config.Merge (allocConfigFragment pgh v).1 pgc
              (allocConfigFragment pgh v).2).1.size := by
            have := m_okEA; rw [hr] at this; exact this
          refine ⟨?_, hup⟩
          rcases m_refEA with href | ⟨_, ⟨rf, hrf, href⟩⟩
          · rw [href] at hr
            exact wlo2 r hr
          · rw [href] at hr
            injection hr with hr'
            rw [← hr']
            exact Nat.le_trans g_ext.1 (Nat.le_trans f_ext.1 hrf)

/-! ### Claim theorems -/

theorem strLen_zero {s : String} (h : s.length = 0) : s = "" := by
  cases s with
  | mk d =>
    simp [String.length] at h
    simp [h]

/-- C4: Validate on a Config with empty URL always fails with the
configuration error, and on any Config with non-empty URL always succeeds,
setting Timeout to 10 seconds when it was zero and DefaultSeverity to
critical when it was empty, leaving both unchanged when already set. -/
theorem C4_validate_spec (cfg : Config) :
    (cfg.URL = "" → cfg.Validate = (cfg, some GoError.alertmanagerURLNotSet))
    ∧ (cfg.URL ≠ "" →
        cfg.Validate.2 = none
        ∧ (cfg.Timeout = 0 → cfg.Validate.1.Timeout = 10 * goSecond)
        ∧ (cfg.Timeout ≠ 0 → cfg.Validate.1.Timeout = cfg.Timeout)
        ∧ (cfg.DefaultSeverity = "" → cfg.Validate.1.DefaultSeverity = "critical")
        ∧ (cfg.DefaultSeverity ≠ "" → cfg.Validate.1.DefaultSeverity = cfg.DefaultSeverity)) := by
  constructor
  · intro h
    unfold Config.Validate
    rw [if_pos (by rw [h]; rfl)]
  · intro h
    have hlen : ¬ cfg.URL.length = 0 := fun hc => h (strLen_zero hc)
    unfold Config.Validate
    dsimp only
    rw [if_neg hlen]
    refine ⟨rfl, ?_, ?_, ?_, ?_⟩
    · intro ht
      split_ifs <;> simp_all
    · intro ht
      split_ifs <;> simp_all
    · intro hs
      have : cfg.DefaultSeverity.length = 0 := by rw [hs]; rfl
      split_ifs <;> simp_all
    · intro hs
      have : ¬ cfg.DefaultSeverity.length = 0 := fun hc => hs (strLen_zero hc)
      split_ifs <;> simp_all

/-- Witness for C4 at two concrete configs, one with an empty URL and one
with URL set, zero Timeout and empty DefaultSeverity. -/
theorem C4_validate_spec_witness :
    (Config.zero.Validate = (Config.zero, some GoError.alertmanagerURLNotSet))
    ∧ (({ Config.zero with URL := "http://am:9093" } : Config).Validate.2 = none
        ∧ ({ Config.zero with URL := "http://am:9093" } : Config).Validate.1.Timeout
            = 10 * goSecond
        ∧ ({ Config.zero with URL := "http://am:9093" } : Config).Validate.1.DefaultSeverity
            = "critical") :=
  ⟨(C4_validate_spec Config.zero).1 rfl,
   ((C4_validate_spec { Config.zero with URL := "http://am:9093" }).2 (by decide)).1,
   ((C4_validate_spec { Config.zero with URL := "http://am:9093" }).2 (by decide)).2.1 (by decide),
   ((C4_validate_spec { Config.zero with URL := "http://am:9093" }).2 (by decide)).2.2.2.1 (by decide)⟩

/-- C8: a response status code outside the interval from 200 to 299 makes
the delivery step return the error carrying both the status code and the
response body, and any code in the interval returns success with no
error. -/
theorem C8_status_classification (code : Nat) (body : String) :
    ((code < 200 ∨ 300 ≤ code) →
      classifyResponse code body
        = some ("Alertmanager returned status " ++ toString code ++ ": " ++ body))
    ∧ (200 ≤ code → code < 300 → classifyResponse code body = none) := by
  constructor
  · intro hc
    unfold classifyResponse
    rw [if_pos hc]
  · intro h1 h2
    unfold classifyResponse
    rw [if_neg]
    push_neg
    exact ⟨h1, h2⟩

/-- Witness for C8: a 503 response surfaces the error carrying 503 and the
body, a 200 response surfaces no error. -/
theorem C8_status_classification_witness :
    classifyResponse 503 "boom" = some "Alertmanager returned status 503: boom"
    ∧ classifyResponse 200 "ok" = none :=
  ⟨(C8_status_classification 503 "boom").1 (by decide),
   (C8_status_classification 200 "ok").2 (by decide) (by decide)⟩

/-- C2: the end-to-end scenario: provider with URL http://am:9093 and no
overrides, endpoint API in group prod, resolved false, no errors: GetConfig
resolves to the validated default config with no error, and buildAlert
yields exactly the six labels and two annotations of the claim, at every
instant now. -/
theorem C2_end_to_end (now : Nat) :
    AlertProvider.GetConfig ⟨[]⟩
        { DefaultConfig := { Config.zero with URL := "http://am:9093" }, DefaultAlert := none, Overrides := [] }
        "prod" { description := none, providerOverride := none }
      = (⟨[]⟩, some ({ URL := "http://am:9093", Timeout := 10 * goSecond, DefaultSeverity := "critical", ExtraLabels := none, ExtraAnnotations := none, ClientConfig := none }, none))
    ∧ (buildAlert ⟨[]⟩
        { URL := "http://am:9093", Timeout := 10 * goSecond, DefaultSeverity := "critical", ExtraLabels := none, ExtraAnnotations := none, ClientConfig := none }
        { Name := "API", URL := "https://api/health", Group := "prod" }
        { description := none, providerOverride := none } ⟨[]⟩ false now).Labels
      = [("alertname", "GatusEndpointDown"), ("instance", "https://api/health"),
         ("job", "gatus"), ("severity", "critical"), ("endpoint", "API"), ("group", "prod")]
    ∧ (buildAlert ⟨[]⟩
        { URL := "http://am:9093", Timeout := 10 * goSecond, DefaultSeverity := "critical", ExtraLabels := none, ExtraAnnotations := none, ClientConfig := none }
        { Name := "API", URL := "https://api/health", Group := "prod" }
        { description := none, providerOverride := none } ⟨[]⟩ false now).Annotations
      = [("summary", "Endpoint API is down"),
         ("description", "Endpoint API (https://api/health) has failed health checks")] :=
  ⟨rfl, rfl, rfl⟩

/-- Suffix testing at the character-list level. -/
theorem goHasSuffix_iff (s t : String) : goHasSuffix s t = true ↔ t.data <:+ s.data := by
  unfold goHasSuffix
  exact List.isSuffixOf_iff_suffix

/-- C9: the delivery target is the configured URL with one trailing slash
trimmed and the alerts path appended unless the trimmed URL already ends
with it: a URL already ending in the alerts path is returned unchanged, one
ending in the alerts path plus a slash only loses the slash, and otherwise
the path is appended to the trimmed URL. -/
theorem C9_url_normalization (u : String) :
    (goHasSuffix u alertsPath = true → buildAlertsURL u = u)
    ∧ (goHasSuffix u (alertsPath ++ "/") = true → buildAlertsURL u = goTrimSuffix u "/")
    ∧ (goHasSuffix (goTrimSuffix u "/") alertsPath = false →
        buildAlertsURL u = goTrimSuffix u "/" ++ alertsPath) := by
  refine ⟨?_, ?_, ?_⟩
  · intro hsuf
    have hnoslash : ¬ goHasSuffix u "/" = true := by
      intro hslash
      obtain ⟨s1, hs⟩ := (goHasSuffix_iff u "/").mp hslash
      obtain ⟨t, ht⟩ := (goHasSuffix_iff u alertsPath).mp hsuf
      have e : t ++ alertsPath.data = s1 ++ ("/" : String).data := ht.trans hs.symm
      have e2 := congrArg List.reverse e
      rw [List.reverse_append, List.reverse_append] at e2
      have h1 : (alertsPath.data.reverse ++ t.reverse).head? = some 's' := by
        rw [List.head?_append_of_ne_nil _ (by decide)]
        decide
      rw [e2] at h1
      rw [List.head?_append_of_ne_nil _ (by decide)] at h1
      exact absurd h1 (by decide)
    have htrim : goTrimSuffix u "/" = u := by
      unfold goTrimSuffix
      rw [if_neg hnoslash]
    unfold buildAlertsURL
    rw [htrim, if_pos hsuf]
  · intro hsuf
    obtain ⟨t, ht⟩ := (goHasSuffix_iff u (alertsPath ++ "/")).mp hsuf
    have hdata : (alertsPath ++ "/").data = alertsPath.data ++ ("/" : String).data := rfl
    rw [hdata] at ht
    have hu : u.data = (t ++ alertsPath.data) ++ ("/" : String).data := by
      rw [← ht]
      exact (List.append_assoc _ _ _).symm
    have hslash : goHasSuffix u "/" = true :=
      (goHasSuffix_iff u "/").mpr ⟨t ++ alertsPath.data, hu.symm⟩
    have htrim : (goTrimSuffix u "/").data = t ++ alertsPath.data := by
      unfold goTrimSuffix
      rw [if_pos hslash]
      show u.data.take (u.data.length - ("/" : String).data.length) = _
      rw [hu, List.length_append]
      simp only [List.length_cons, List.length_nil, Nat.add_sub_cancel]
      exact List.take_left _ _
    have hsuf2 : goHasSuffix (goTrimSuffix u "/") alertsPath = true := by
      apply (goHasSuffix_iff _ _).mpr
      rw [htrim]
      exact List.suffix_append t alertsPath.data
    unfold buildAlertsURL
    rw [if_pos hsuf2]
  · intro hns
    unfold buildAlertsURL
    rw [if_neg (by simp [hns])]

/-- Witness for C9 at three concrete URLs: one already carrying the alerts
path, one carrying it plus a trailing slash, and a bare base URL. -/
theorem C9_url_normalization_witness :
    buildAlertsURL "http://am:9093/api/v2/alerts" = "http://am:9093/api/v2/alerts"
    ∧ buildAlertsURL "http://am:9093/api/v2/alerts/" = "http://am:9093/api/v2/alerts"
    ∧ buildAlertsURL "http://am:9093/" = "http://am:9093/api/v2/alerts" := by
  refine ⟨(C9_url_normalization "http://am:9093/api/v2/alerts").1 (by decide), ?_, ?_⟩
  · have h := (C9_url_normalization "http://am:9093/api/v2/alerts/").2.1 (by decide)
    rw [h]
    decide
  · have h := (C9_url_normalization "http://am:9093/").2.2 (by decide)
    rw [h]
    decide

/-- C5 counterexample: an effective config whose ExtraAnnotations map
carries a summary key overwrites the fixed summary annotation (extra
annotations are overlaid last), so the claim's summary clause fails as
stated for every input. -/
theorem C5_counterexample :
    lookupE (buildAlert ⟨[[("summary", "boom")]]⟩
        { URL := "u", Timeout := 0, DefaultSeverity := "critical", ExtraLabels := none, ExtraAnnotations := some 0, ClientConfig := none }
        { Name := "API", URL := "https://api/health", Group := "prod" }
        { description := none, providerOverride := none } ⟨[]⟩ false 1).Annotations "summary"
      = some "boom"
    ∧ ¬ lookupE (buildAlert ⟨[[("summary", "boom")]]⟩
        { URL := "u", Timeout := 0, DefaultSeverity := "critical", ExtraLabels := none, ExtraAnnotations := some 0, ClientConfig := none }
        { Name := "API", URL := "https://api/health", Group := "prod" }
        { description := none, providerOverride := none } ⟨[]⟩ false 1).Annotations "summary"
      = some "Endpoint API is down" := by
  constructor
  · rfl
  · decide

/-- C5 (amended): provided the effective config's extra annotations carry no
summary or description key, buildAlert with resolved false returns a payload
with EndsAt at the zero value, summary "Endpoint name is down" and the
description extended with the comma-space-joined errors exactly when the
result carries at least one; with resolved true EndsAt equals the call
instant, which is StartsAt, and the summary is "Endpoint name is now
healthy". -/
theorem C5_amended (h : Heap) (cfg : Config) (ep : Endpoint) (a : Alert) (result : Result)
    (now : Nat)
    (hs : lookupE (mapEntries h cfg.ExtraAnnotations) "summary" = none)
    (hd : lookupE (mapEntries h cfg.ExtraAnnotations) "description" = none) :
    ((buildAlert h cfg ep a result false now).EndsAt = 0
      ∧ lookupE (buildAlert h cfg ep a result false now).Annotations "summary"
          = some ("Endpoint " ++ ep.Name ++ " is down")
      ∧ lookupE (buildAlert h cfg ep a result false now).Annotations "description"
          = some (if result.Errors.length > 0 then
                "Endpoint " ++ ep.Name ++ " (" ++ ep.URL ++ ") has failed health checks"
                  ++ ". Errors: " ++ String.intercalate ", " result.Errors
              else "Endpoint " ++ ep.Name ++ " (" ++ ep.URL ++ ") has failed health checks"))
    ∧ ((buildAlert h cfg ep a result true now).EndsAt = now
      ∧ (buildAlert h cfg ep a result true now).EndsAt
          = (buildAlert h cfg ep a result true now).StartsAt
      ∧ lookupE (buildAlert h cfg ep a result true now).Annotations "summary"
          = some ("Endpoint " ++ ep.Name ++ " is now healthy")) := by
  refine ⟨⟨rfl, ?_, ?_⟩, rfl, rfl, ?_⟩
  · unfold buildAlert
    dsimp only
    rw [if_neg (by decide : ¬ (false = true))]
    dsimp only
    rw [lookupE_writeAll_of_none _ _ _ hs]
    by_cases hdesc : a.GetDescription ≠ ""
    · rw [if_pos hdesc, lookupE_upsert, if_neg (by decide), lookupE_upsert,
        if_neg (by decide), lookupE_upsert, if_pos rfl]
    · rw [if_neg hdesc, lookupE_upsert, if_neg (by decide), lookupE_upsert, if_pos rfl]
  · unfold buildAlert
    dsimp only
    rw [if_neg (by decide : ¬ (false = true))]
    dsimp only
    rw [lookupE_writeAll_of_none _ _ _ hd]
    by_cases hdesc : a.GetDescription ≠ ""
    · rw [if_pos hdesc, lookupE_upsert, if_neg (by decide), lookupE_upsert, if_pos rfl]
    · rw [if_neg hdesc, lookupE_upsert, if_pos rfl]
  · unfold buildAlert
    dsimp only
    rw [if_pos (rfl : (true = true))]
    dsimp only
    rw [lookupE_writeAll_of_none _ _ _ hs]
    by_cases hdesc : a.GetDescription ≠ ""
    · rw [if_pos hdesc, lookupE_upsert, if_neg (by decide), lookupE_upsert,
        if_neg (by decide), lookupE_upsert, if_pos rfl]
    · rw [if_neg hdesc, lookupE_upsert, if_neg (by decide), lookupE_upsert, if_pos rfl]

/-- Witness for C5 at a concrete endpoint with two errors and no extra
annotations, both firing and resolved. -/
theorem C5_amended_witness :
    (buildAlert ⟨[]⟩
        { URL := "u", Timeout := 0, DefaultSeverity := "critical", ExtraLabels := none, ExtraAnnotations := none, ClientConfig := none }
        { Name := "API", URL := "https://api/health", Group := "" }
        { description := none, providerOverride := none } ⟨["timeout", "dns fail"]⟩ false 7).EndsAt = 0
    ∧ lookupE (buildAlert ⟨[]⟩
        { URL := "u", Timeout := 0, DefaultSeverity := "critical", ExtraLabels := none, ExtraAnnotations := none, ClientConfig := none }
        { Name := "API", URL := "https://api/health", Group := "" }
        { description := none, providerOverride := none } ⟨["timeout", "dns fail"]⟩ false 7).Annotations "description"
      = some "Endpoint API (https://api/health) has failed health checks. Errors: timeout, dns fail"
    ∧ (buildAlert ⟨[]⟩
        { URL := "u", Timeout := 0, DefaultSeverity := "critical", ExtraLabels := none, ExtraAnnotations := none, ClientConfig := none }
        { Name := "API", URL := "https://api/health", Group := "" }
        { description := none, providerOverride := none } ⟨["timeout", "dns fail"]⟩ true 7).EndsAt = 7 := by
  have h := C5_amended ⟨[]⟩
    { URL := "u", Timeout := 0, DefaultSeverity := "critical", ExtraLabels := none, ExtraAnnotations := none, ClientConfig := none }
    { Name := "API", URL := "https://api/health", Group := "" }
    { description := none, providerOverride := none } ⟨["timeout", "dns fail"]⟩ 7 rfl rfl
  refine ⟨h.1.1, ?_, h.2.1⟩
  have hdesc := h.1.2.2
  rw [hdesc]
  rfl

/-- C6 counterexample: a negative override Timeout is non-zero yet does not
replace the receiver's Timeout (the code requires a strictly positive
duration). -/
theorem C6_counterexample :
    (Config.Merge ⟨[]⟩
        { URL := "u", Timeout := 5, DefaultSeverity := "", ExtraLabels := none, ExtraAnnotations := none, ClientConfig := none }
        { URL := "", Timeout := -1, DefaultSeverity := "", ExtraLabels := none, ExtraAnnotations := none, ClientConfig := none }).2.Timeout = 5
    ∧ (-1 : Int) ≠ 0
    ∧ (Config.Merge ⟨[]⟩
        { URL := "u", Timeout := 5, DefaultSeverity := "", ExtraLabels := none, ExtraAnnotations := none, ClientConfig := none }
        { URL := "", Timeout := -1, DefaultSeverity := "", ExtraLabels := none, ExtraAnnotations := none, ClientConfig := none }).2.Timeout ≠ -1 := by
  refine ⟨rfl, by decide, by decide⟩

/-- C6 (amended): Merge replaces each scalar field exactly when the
override's field is present, where presence means non-empty string for URL
and DefaultSeverity, strictly positive duration for Timeout (a zero or
negative override Timeout leaves the receiver's Timeout unchanged), and
non-nil pointer for ClientConfig; an absent (nil or empty) override map
leaves the receiver's map reference unchanged, and when the receiver's maps
are genuine distinct maps the whole merge acts as the value-level mergeV,
whose map branches write the override entries over the receiver's. -/
theorem C6_amended (h : Heap) (b o : Config) :
    ((Config.Merge h b o).2.URL = if o.URL.length > 0 then o.URL else b.URL)
    ∧ ((Config.Merge h b o).2.Timeout = if o.Timeout > 0 then o.Timeout else b.Timeout)
    ∧ ((Config.Merge h b o).2.DefaultSeverity
        = if o.DefaultSeverity.length > 0 then o.DefaultSeverity else b.DefaultSeverity)
    ∧ ((Config.Merge h b o).2.ClientConfig
        = if o.ClientConfig.isSome then o.ClientConfig else b.ClientConfig)
    ∧ (mapLen h o.ExtraLabels = 0 → (Config.Merge h b o).2.ExtraLabels = b.ExtraLabels)
    ∧ (refOk h b.ExtraLabels → refOk h o.ExtraAnnotations →
        (o.ExtraAnnotations = none ∨ o.ExtraAnnotations ≠ b.ExtraLabels) →
        mapLen h o.ExtraAnnotations = 0 →
        (Config.Merge h b o).2.ExtraAnnotations = b.ExtraAnnotations)
    ∧ (refOk h b.ExtraLabels → refOk h b.ExtraAnnotations → refOk h o.ExtraAnnotations →
        (b.ExtraLabels = none ∨ b.ExtraLabels ≠ b.ExtraAnnotations) →
        (o.ExtraAnnotations = none ∨ o.ExtraAnnotations ≠ b.ExtraLabels) →
        (Config.Merge h b o).2.toV (Config.Merge h b o).1 = (b.toV h).mergeV (o.toV h)) := by
  refine ⟨?_, ?_, ?_, ?_, ?_, ?_, ?_⟩
  · rw [Config.Merge_eq]; rfl
  · rw [Config.Merge_eq]; rfl
  · rw [Config.Merge_eq]; rfl
  · rw [Config.Merge_eq]; rfl
  · intro hlen
    rw [Config.Merge_eq]
    show (mergeMapField h b.ExtraLabels o.ExtraLabels).2 = b.ExtraLabels
    cases hoe : o.ExtraLabels with
    | none => rfl
    | some rs =>
      have hlen' : (h.get rs).length = 0 := by rw [hoe] at hlen; exact hlen
      have : ¬ (h.get rs).length > 0 := by simp [hlen']
      simp only [mergeMapField]
      rw [if_neg this]
  · intro hbEL hoEA hne hlen
    rw [Config.Merge_eq]
    show (mergeMapField (mergeMapField h b.ExtraLabels o.ExtraLabels).1
        b.ExtraAnnotations o.ExtraAnnotations).2 = b.ExtraAnnotations
    cases hoe : o.ExtraAnnotations with
    | none => rfl
    | some rs =>
      have hrs_lt : rs < h.size := by
        have := hoEA; rw [hoe] at this; exact this
      have hnil : h.get rs = [] := by
        have hlen' : (h.get rs).length = 0 := by rw [hoe] at hlen; exact hlen
        exact List.length_eq_zero.mp hlen'
      have hbne : b.ExtraLabels ≠ some rs := by
        rcases hne with hn | hn
        · rw [hoe] at hn; exact Option.noConfusion hn
        · rw [hoe] at hn; exact fun hc => hn (hc ▸ rfl)
      obtain ⟨f1_frame, _, _, _, _⟩ := mergeMapField_facts h b.ExtraLabels o.ExtraLabels hbEL
      have hempty : (mergeMapField h b.ExtraLabels o.ExtraLabels).1.get rs = [] := by
        rw [f1_frame rs hrs_lt hbne, hnil]
      generalize hH1 : (mergeMapField h b.ExtraLabels o.ExtraLabels).1 = H1 at hempty ⊢
      simp only [mergeMapField]
      rw [if_neg (by simp [hempty])]
  · intro h1 h2 h3 h4 h5
    exact (Merge_facts h b o h1 h2 h3 h4 h5).2.2.2.2.2.2.2

/-! ### Further helpers for the remaining claims -/

theorem strLen_pos {s : String} (h : s ≠ "") : s.length > 0 :=
  Nat.pos_of_ne_zero (fun hc => h (strLen_zero hc))

theorem mapEntries_eq (X : Heap) (m : Option Nat) :
    mapEntries X m = (m.map X.get).getD [] := by
  cases m <;> rfl

/-- validateV never changes the URL. -/
theorem validateV_URL (x : ConfigV) : x.validateV.1.URL = x.URL := by
  unfold ConfigV.validateV
  dsimp only
  split_ifs <;> rfl

/-- validateV preserves a non-empty severity. -/
theorem validateV_severity (x : ConfigV) (hx : x.DefaultSeverity ≠ "") :
    x.validateV.1.DefaultSeverity = x.DefaultSeverity := by
  have hlen : ¬ x.DefaultSeverity.length = 0 := fun hc => hx (strLen_zero hc)
  unfold ConfigV.validateV
  dsimp only
  split_ifs <;> simp_all

/-- The value-level pipeline, rephrased over the provider's raw override
list: merge the first override whose Group equals the input group, then the
blob fragment, then validate. -/
theorem getConfigV_eq (p : AlertProvider) (h : Heap) (group : String)
    (blob : Option (Except String ConfigV)) :
    getConfigV (p.toV h) group blob
      = (match blob with
         | none => some (match p.Overrides.find? (fun o : Override => group == o.Group) with
             | some o => (p.DefaultConfig.toV h).mergeV (o.Config.toV h)
             | none => p.DefaultConfig.toV h).validateV
         | some (Except.error _) => none
         | some (Except.ok v) =>
           some ((match p.Overrides.find? (fun o : Override => group == o.Group) with
             | some o => (p.DefaultConfig.toV h).mergeV (o.Config.toV h)
             | none => p.DefaultConfig.toV h).mergeV v).validateV) := by
  unfold getConfigV AlertProvider.toV
  dsimp only
  rw [List.find?_map]
  have hpred : ((fun o : OverrideV => group == o.Group) ∘ Override.toV h)
      = fun o : Override => group == o.Group := by
    funext o
    rfl
  rw [hpred]
  cases p.Overrides.find? (fun o => group == o.Group) <;> cases blob <;> rfl

/-- A provider's value view is unchanged by a heap extension. -/
theorem providerToV_of_ext {h h' : Heap} (p : AlertProvider)
    (hwf : ProviderWf h p) (hext : HeapExt h h') : p.toV h' = p.toV h := by
  unfold AlertProvider.toV
  refine congrArg₂ ProviderV.mk ?_ ?_
  · exact Config.toV_of_ext _ hwf.1 hext
  · apply List.map_eq_map_iff.mpr
    intro o ho
    unfold Override.toV
    exact congrArg (OverrideV.mk o.Group) (Config.toV_of_ext _ (hwf.2.2.2 o ho) hext)

/-- Provider well-formedness survives a heap extension. -/
theorem ProviderWf_of_ext {h h' : Heap} (p : AlertProvider)
    (hwf : ProviderWf h p) (hext : HeapExt h h') : ProviderWf h' p := by
  obtain ⟨hok, hwl, hwa, hos⟩ := hwf
  refine ⟨⟨hok.1.mono hext.1, hok.2.mono hext.1⟩, ?_, ?_, fun o ho => ⟨(hos o ho).1.mono hext.1, (hos o ho).2.mono hext.1⟩⟩
  · cases hEL : p.DefaultConfig.ExtraLabels with
    | none => trivial
    | some r =>
      show distinctKeys (h'.get r)
      have hr : r < h.size := by have := hok.1; rw [hEL] at this; exact this
      rw [hext.2 r hr]
      have := hwl; rw [hEL] at this; exact this
  · cases hEA : p.DefaultConfig.ExtraAnnotations with
    | none => trivial
    | some r =>
      show distinctKeys (h'.get r)
      have hr : r < h.size := by have := hok.2; rw [hEA] at this; exact this
      rw [hext.2 r hr]
      have := hwa; rw [hEA] at this; exact this

/-- C3 counterexample: when the base and the override reference the very
same map object, the map stored in the base after the merge is exactly the
object referenced by the override, so the claim's aliasing clause fails as
universally stated. -/
theorem C3_counterexample :
    (Config.Merge ⟨[[("k", "v")]]⟩
        { URL := "u", Timeout := 0, DefaultSeverity := "", ExtraLabels := some 0, ExtraAnnotations := none, ClientConfig := none }
        { URL := "", Timeout := 0, DefaultSeverity := "", ExtraLabels := some 0, ExtraAnnotations := none, ClientConfig := none }).2.ExtraLabels
      = ({ URL := "", Timeout := 0, DefaultSeverity := "", ExtraLabels := some 0, ExtraAnnotations := none, ClientConfig := none } : Config).ExtraLabels
    ∧ ({ URL := "", Timeout := 0, DefaultSeverity := "", ExtraLabels := some 0, ExtraAnnotations := none, ClientConfig := none } : Config).ExtraLabels ≠ none := by
  exact ⟨rfl, by decide⟩

/-- C3 (amended): B.Merge(O) leaves B.URL unchanged when O.URL is empty and
replaces it otherwise; looking up any key in B's label map afterwards gives
O's value on shared keys and B's value otherwise (key union); and provided
B's label map is not already the very object referenced by O (and the
references involved are genuine distinct Go maps, as GetConfig guarantees),
the map object stored in B after the merge is never the one referenced by
O. -/
theorem C3_amended (h : Heap) (b o : Config)
    (hbEL : refOk h b.ExtraLabels) (hbEA : refOk h b.ExtraAnnotations)
    (hoEA : refOk h o.ExtraAnnotations)
    (hA1 : b.ExtraLabels = none ∨ b.ExtraLabels ≠ b.ExtraAnnotations)
    (hA2 : o.ExtraAnnotations = none ∨ o.ExtraAnnotations ≠ b.ExtraLabels)
    (hdk : distinctKeys (mapEntries h o.ExtraLabels))
    (hne : b.ExtraLabels = none ∨ b.ExtraLabels ≠ o.ExtraLabels) :
    ((o.URL = "" → (Config.Merge h b o).2.URL = b.URL)
      ∧ (o.URL ≠ "" → (Config.Merge h b o).2.URL = o.URL))
    ∧ (∀ k, lookupE (mapEntries (Config.Merge h b o).1 (Config.Merge h b o).2.ExtraLabels) k
        = match lookupE (mapEntries h o.ExtraLabels) k with
          | some v => some v
          | none => lookupE (mapEntries h b.ExtraLabels) k)
    ∧ (o.ExtraLabels ≠ none → (Config.Merge h b o).2.ExtraLabels ≠ o.ExtraLabels) := by
  have hurl : (Config.Merge h b o).2.URL = if o.URL.length > 0 then o.URL else b.URL := by
    rw [Config.Merge_eq]
    rfl
  refine ⟨⟨?_, ?_⟩, ?_, ?_⟩
  · intro hu
    rw [hurl, if_neg (by rw [hu]; decide)]
  · intro hu
    rw [hurl, if_pos (strLen_pos hu)]
  · -- key union
    intro k
    have htoV := (Merge_facts h b o hbEL hbEA hoEA hA1 hA2).2.2.2.2.2.2.2
    have hproj := congrArg ConfigV.ExtraLabels htoV
    have hlhs : (Config.toV (Config.Merge h b o).1 (Config.Merge h b o).2).ExtraLabels
        = (Config.Merge h b o).2.ExtraLabels.map (Config.Merge h b o).1.get := rfl
    have hrhs : ((b.toV h).mergeV (o.toV h)).ExtraLabels
        = mergeEntriesV (b.ExtraLabels.map h.get) (o.ExtraLabels.map h.get) := rfl
    rw [hlhs, hrhs] at hproj
    rw [mapEntries_eq, hproj, mapEntries_eq, mapEntries_eq]
    unfold mergeEntriesV
    by_cases hlen : entriesLenV (o.ExtraLabels.map h.get) > 0
    · rw [if_pos hlen]
      have hdk' : distinctKeys ((o.ExtraLabels.map h.get).getD []) := by
        rw [← mapEntries_eq]
        exact hdk
      rw [Option.getD_some, lookupE_writeAll _ _ _ hdk']
      cases lookupE ((o.ExtraLabels.map h.get).getD []) k <;> rfl
    · rw [if_neg hlen]
      have hnone : lookupE ((o.ExtraLabels.map h.get).getD []) k = none := by
        cases hoe : o.ExtraLabels with
        | none => rfl
        | some rs =>
          have : (h.get rs).length = 0 := by
            rw [hoe] at hlen
            simpa [entriesLenV] using hlen
          have hn : h.get rs = [] := List.length_eq_zero.mp this
          simp [hn, lookupE]
      rw [hnone]
  · -- no aliasing into the result
    intro honn
    cases hoe : o.ExtraLabels with
    | none => exact absurd hoe (hoe ▸ honn)
    | some rs =>
      have hres : (Config.Merge h b o).2.ExtraLabels
          = (mergeMapField h b.ExtraLabels o.ExtraLabels).2 := by
        rw [Config.Merge_eq]
      rw [hres, hoe]
      by_cases hl : (h.get rs).length > 0
      · have hrs_lt : rs < h.size := by
          apply h.lt_size_of_get_ne_nil
          intro hc
          rw [hc] at hl
          simp at hl
        cases hbe : b.ExtraLabels with
        | none =>
          have heq : mergeMapField h none (some rs)
              = ((h.alloc []).1.write (h.alloc []).2
                  (writeAll ((h.alloc []).1.get (h.alloc []).2) ((h.alloc []).1.get rs)),
                 some (h.alloc []).2) := by
            simp only [mergeMapField]
            rw [if_pos hl]
          rw [heq]
          intro hc
          injection hc with hc'
          rw [Heap.alloc_ref] at hc'
          exact Nat.ne_of_lt hrs_lt hc'.symm
        | some rd =>
          have heq : mergeMapField h (some rd) (some rs)
              = (h.write rd (writeAll (h.get rd) (h.get rs)), some rd) := by
            simp only [mergeMapField]
            rw [if_pos hl]
          rw [heq]
          rcases hne with hn | hn
          · rw [hn] at hbe
            exact absurd hbe (fun hc => Option.noConfusion hc)
          · rw [hbe, hoe] at hn
            exact fun hc => hn hc
      · have heq : mergeMapField h b.ExtraLabels (some rs) = (h, b.ExtraLabels) := by
          simp only [mergeMapField]
          rw [if_neg hl]
        rw [heq]
        rcases hne with hn | hn
        · rw [hn]
          exact fun hc => Option.noConfusion hc
        · rw [hoe] at hn
          exact hn

/-- Witness for C3 at a base with map cell 0 and an override with map cell
1: the URL stays, the override's entry wins the union, the base's other
entry survives, and the result does not alias the override's map. -/
theorem C3_amended_witness :
    (Config.Merge ⟨[[("a", "1"), ("b", "9")], [("b", "2")]]⟩
        { URL := "u", Timeout := 0, DefaultSeverity := "", ExtraLabels := some 0, ExtraAnnotations := none, ClientConfig := none }
        { URL := "", Timeout := 0, DefaultSeverity := "", ExtraLabels := some 1, ExtraAnnotations := none, ClientConfig := none }).2.URL = "u"
    ∧ lookupE (mapEntries
        (Config.Merge ⟨[[("a", "1"), ("b", "9")], [("b", "2")]]⟩
          { URL := "u", Timeout := 0, DefaultSeverity := "", ExtraLabels := some 0, ExtraAnnotations := none, ClientConfig := none }
          { URL := "", Timeout := 0, DefaultSeverity := "", ExtraLabels := some 1, ExtraAnnotations := none, ClientConfig := none }).1
        (Config.Merge ⟨[[("a", "1"), ("b", "9")], [("b", "2")]]⟩
          { URL := "u", Timeout := 0, DefaultSeverity := "", ExtraLabels := some 0, ExtraAnnotations := none, ClientConfig := none }
          { URL := "", Timeout := 0, DefaultSeverity := "", ExtraLabels := some 1, ExtraAnnotations := none, ClientConfig := none }).2.ExtraLabels) "b"
      = some "2"
    ∧ lookupE (mapEntries
        (Config.Merge ⟨[[("a", "1"), ("b", "9")], [("b", "2")]]⟩
          { URL := "u", Timeout := 0, DefaultSeverity := "", ExtraLabels := some 0, ExtraAnnotations := none, ClientConfig := none }
          { URL := "", Timeout := 0, DefaultSeverity := "", ExtraLabels := some 1, ExtraAnnotations := none, ClientConfig := none }).1
        (Config.Merge ⟨[[("a", "1"), ("b", "9")], [("b", "2")]]⟩
          { URL := "u", Timeout := 0, DefaultSeverity := "", ExtraLabels := some 0, ExtraAnnotations := none, ClientConfig := none }
          { URL := "", Timeout := 0, DefaultSeverity := "", ExtraLabels := some 1, ExtraAnnotations := none, ClientConfig := none }).2.ExtraLabels) "a"
      = some "1"
    ∧ (Config.Merge ⟨[[("a", "1"), ("b", "9")], [("b", "2")]]⟩
        { URL := "u", Timeout := 0, DefaultSeverity := "", ExtraLabels := some 0, ExtraAnnotations := none, ClientConfig := none }
        { URL := "", Timeout := 0, DefaultSeverity := "", ExtraLabels := some 1, ExtraAnnotations := none, ClientConfig := none }).2.ExtraLabels
      ≠ ({ URL := "", Timeout := 0, DefaultSeverity := "", ExtraLabels := some 1, ExtraAnnotations := none, ClientConfig := none } : Config).ExtraLabels := by
  have h := C3_amended ⟨[[("a", "1"), ("b", "9")], [("b", "2")]]⟩
    { URL := "u", Timeout := 0, DefaultSeverity := "", ExtraLabels := some 0, ExtraAnnotations := none, ClientConfig := none }
    { URL := "", Timeout := 0, DefaultSeverity := "", ExtraLabels := some 1, ExtraAnnotations := none, ClientConfig := none }
    (by decide) (by decide) (by decide) (by decide) (by decide) (by decide) (by decide)
  refine ⟨h.1.1 rfl, ?_, ?_, h.2.2 (by decide)⟩
  · rw [h.2.1 "b"]
    rfl
  · rw [h.2.1 "a"]
    rfl

/-- C1: for a well-formed provider state and an alert whose override blob
parses to the fragment v, GetConfig produces (at value level) exactly the
layered pipeline: the deep-copied defaults, merged with the first override
whose Group equals the input group (later matches ignored), merged with v
on top, then validated; consequently a DefaultSeverity or URL set in the
alert-level fragment always wins, and a severity set only at the group
level wins over the default. -/
theorem C1_layering (h : Heap) (p : AlertProvider) (group : String) (a : Alert) (v : ConfigV)
    (hwf : ProviderWf h p) (hblob : a.providerOverride = some (Except.ok v)) :
    ((p.GetConfig h group a).2.map (fun ce => (ce.1.toV (p.GetConfig h group a).1, ce.2)))
      = some (((match p.Overrides.find? (fun o : Override => group == o.Group) with
          | some o => (p.DefaultConfig.toV h).mergeV (o.Config.toV h)
          | none => p.DefaultConfig.toV h).mergeV v).validateV)
    ∧ (∀ cfg err, (p.GetConfig h group a).2 = some (cfg, err) →
        (v.DefaultSeverity ≠ "" → cfg.DefaultSeverity = v.DefaultSeverity)
        ∧ (v.URL ≠ "" → cfg.URL = v.URL)
        ∧ (∀ o, p.Overrides.find? (fun o' : Override => group == o'.Group) = some o →
            v.DefaultSeverity = "" → (o.Config.toV h).DefaultSeverity ≠ "" →
            cfg.DefaultSeverity = (o.Config.toV h).DefaultSeverity)) := by
  have hfacts := GetConfig_facts h p group a hwf
  have hmain : ((p.GetConfig h group a).2.map
        (fun ce => (ce.1.toV (p.GetConfig h group a).1, ce.2)))
      = some (((match p.Overrides.find? (fun o : Override => group == o.Group) with
          | some o => (p.DefaultConfig.toV h).mergeV (o.Config.toV h)
          | none => p.DefaultConfig.toV h).mergeV v).validateV) := by
    rw [hfacts.1, getConfigV_eq, hblob]
  refine ⟨hmain, ?_⟩
  intro cfg err hsome
  rw [hsome] at hmain
  have hmain' : some ((cfg, err).1.toV (p.GetConfig h group a).1, (cfg, err).2)
      = some (((match p.Overrides.find? (fun o : Override => group == o.Group) with
          | some o => (p.DefaultConfig.toV h).mergeV (o.Config.toV h)
          | none => p.DefaultConfig.toV h).mergeV v).validateV) := hmain
  injection hmain' with hpair
  have hcfg : cfg.toV (p.GetConfig h group a).1
      = ((match p.Overrides.find? (fun o : Override => group == o.Group) with
          | some o => (p.DefaultConfig.toV h).mergeV (o.Config.toV h)
          | none => p.DefaultConfig.toV h).mergeV v).validateV.1 :=
    congrArg Prod.fst hpair
  have hsev : cfg.DefaultSeverity
      = ((match p.Overrides.find? (fun o : Override => group == o.Group) with
          | some o => (p.DefaultConfig.toV h).mergeV (o.Config.toV h)
          | none => p.DefaultConfig.toV h).mergeV v).validateV.1.DefaultSeverity :=
    congrArg ConfigV.DefaultSeverity hcfg
  have hurl : cfg.URL
      = ((match p.Overrides.find? (fun o : Override => group == o.Group) with
          | some o => (p.DefaultConfig.toV h).mergeV (o.Config.toV h)
          | none => p.DefaultConfig.toV h).mergeV v).validateV.1.URL :=
    congrArg ConfigV.URL hcfg
  refine ⟨?_, ?_, ?_⟩
  · intro hv
    rw [hsev]
    have hmerged : ∀ M : ConfigV, (M.mergeV v).DefaultSeverity = v.DefaultSeverity := by
      intro M
      show (if v.DefaultSeverity.length > 0 then v.DefaultSeverity else M.DefaultSeverity) = _
      rw [if_pos (strLen_pos hv)]
    rw [validateV_severity _ (by rw [hmerged]; exact hv), hmerged]
  · intro hv
    rw [hurl, validateV_URL]
    show (if v.URL.length > 0 then v.URL else _) = v.URL
    rw [if_pos (strLen_pos hv)]
  · intro o hfind hv hosev
    rw [hsev, hfind]
    have hmerged : (((p.DefaultConfig.toV h).mergeV (o.Config.toV h)).mergeV v).DefaultSeverity
        = (o.Config.toV h).DefaultSeverity := by
      show (if v.DefaultSeverity.length > 0 then v.DefaultSeverity
            else ((p.DefaultConfig.toV h).mergeV (o.Config.toV h)).DefaultSeverity) = _
      rw [if_neg (by rw [hv]; decide)]
      show (if (o.Config.toV h).DefaultSeverity.length > 0
            then (o.Config.toV h).DefaultSeverity else _) = _
      rw [if_pos (strLen_pos hosev)]
    rw [validateV_severity _ (by rw [hmerged]; exact hosev), hmerged]

/-- Witness for C1: provider with a group override setting severity warning,
alert fragment setting severity alert-sev; the resolved severity is the
alert's. -/
theorem C1_layering_witness :
    ProviderWf ⟨[]⟩
      { DefaultConfig := { URL := "http://am:9093", Timeout := 0, DefaultSeverity := "", ExtraLabels := none, ExtraAnnotations := none, ClientConfig := none },
        DefaultAlert := none,
        Overrides := [{ Group := "g", Config := { URL := "", Timeout := 0, DefaultSeverity := "warning", ExtraLabels := none, ExtraAnnotations := none, ClientConfig := none } }] }
    ∧ (AlertProvider.GetConfig ⟨[]⟩
        { DefaultConfig := { URL := "http://am:9093", Timeout := 0, DefaultSeverity := "", ExtraLabels := none, ExtraAnnotations := none, ClientConfig := none },
          DefaultAlert := none,
          Overrides := [{ Group := "g", Config := { URL := "", Timeout := 0, DefaultSeverity := "warning", ExtraLabels := none, ExtraAnnotations := none, ClientConfig := none } }] }
        "g"
        { description := none,
          providerOverride := some (Except.ok { URL := "", Timeout := 0, DefaultSeverity := "alert-sev", ExtraLabels := none, ExtraAnnotations := none, ClientConfig := none }) }).2
      = some ({ URL := "http://am:9093", Timeout := 10 * goSecond, DefaultSeverity := "alert-sev", ExtraLabels := none, ExtraAnnotations := none, ClientConfig := none }, none)
    ∧ ({ URL := "http://am:9093", Timeout := 10 * goSecond, DefaultSeverity := "alert-sev", ExtraLabels := none, ExtraAnnotations := none, ClientConfig := none } : Config).DefaultSeverity = "alert-sev" := by
  refine ⟨by decide, rfl, ?_⟩
  exact ((C1_layering ⟨[]⟩
      { DefaultConfig := { URL := "http://am:9093", Timeout := 0, DefaultSeverity := "", ExtraLabels := none, ExtraAnnotations := none, ClientConfig := none },
        DefaultAlert := none,
        Overrides := [{ Group := "g", Config := { URL := "", Timeout := 0, DefaultSeverity := "warning", ExtraLabels := none, ExtraAnnotations := none, ClientConfig := none } }] }
      "g"
      { description := none,
        providerOverride := some (Except.ok { URL := "", Timeout := 0, DefaultSeverity := "alert-sev", ExtraLabels := none, ExtraAnnotations := none, ClientConfig := none }) }
      { URL := "", Timeout := 0, DefaultSeverity := "alert-sev", ExtraLabels := none, ExtraAnnotations := none, ClientConfig := none }
      (by decide) rfl).2
    { URL := "http://am:9093", Timeout := 10 * goSecond, DefaultSeverity := "alert-sev", ExtraLabels := none, ExtraAnnotations := none, ClientConfig := none }
    none rfl).1 (by decide)

/-- C10: group matching is exact string equality with no special case for
the empty name: when an override with empty Group exists, a GetConfig call
with the empty group name (an endpoint with no routing group) finds the
first such override and merges its config over the deep-copied defaults
before validating. -/
theorem C10_empty_group (h : Heap) (p : AlertProvider) (a : Alert)
    (hwf : ProviderWf h p) (hblob : a.providerOverride = none)
    (hex : ∃ o ∈ p.Overrides, o.Group = "") :
    ∃ o, p.Overrides.find? (fun o' : Override => "" == o'.Group) = some o ∧ o.Group = ""
      ∧ ((p.GetConfig h "" a).2.map (fun ce => (ce.1.toV (p.GetConfig h "" a).1, ce.2)))
          = some (((p.DefaultConfig.toV h).mergeV (o.Config.toV h)).validateV) := by
  obtain ⟨o', ho'mem, ho'g⟩ := hex
  have hsome : (p.Overrides.find? (fun o' : Override => "" == o'.Group)).isSome :=
    List.find?_isSome.mpr ⟨o', ho'mem, beq_iff_eq.mpr ho'g.symm⟩
  obtain ⟨o, hfind⟩ := Option.isSome_iff_exists.mp hsome
  have hgroup : o.Group = "" := by
    have := List.find?_some hfind
    exact (beq_iff_eq.mp this).symm
  refine ⟨o, hfind, hgroup, ?_⟩
  have hfacts := GetConfig_facts h p "" a hwf
  rw [hfacts.1, getConfigV_eq, hblob, hfind]

/-- Witness for C10: a provider with one override whose Group is empty; a
call with the empty group resolves to the merged, validated override
severity. -/
theorem C10_empty_group_witness :
    ProviderWf ⟨[]⟩
      { DefaultConfig := { URL := "http://am:9093", Timeout := 0, DefaultSeverity := "", ExtraLabels := none, ExtraAnnotations := none, ClientConfig := none },
        DefaultAlert := none,
        Overrides := [{ Group := "", Config := { URL := "", Timeout := 0, DefaultSeverity := "warning", ExtraLabels := none, ExtraAnnotations := none, ClientConfig := none } }] }
    ∧ ((AlertProvider.GetConfig ⟨[]⟩
      { DefaultConfig := { URL := "http://am:9093", Timeout := 0, DefaultSeverity := "", ExtraLabels := none, ExtraAnnotations := none, ClientConfig := none },
        DefaultAlert := none,
        Overrides := [{ Group := "", Config := { URL := "", Timeout := 0, DefaultSeverity := "warning", ExtraLabels := none, ExtraAnnotations := none, ClientConfig := none } }] }
      "" { description := none, providerOverride := none }).2.map
        (fun ce => (ce.1.toV (AlertProvider.GetConfig ⟨[]⟩
          { DefaultConfig := { URL := "http://am:9093", Timeout := 0, DefaultSeverity := "", ExtraLabels := none, ExtraAnnotations := none, ClientConfig := none },
            DefaultAlert := none,
            Overrides := [{ Group := "", Config := { URL := "", Timeout := 0, DefaultSeverity := "warning", ExtraLabels := none, ExtraAnnotations := none, ClientConfig := none } }] }
          "" { description := none, providerOverride := none }).1, ce.2)))
      = some ((({ URL := "http://am:9093", Timeout := 0, DefaultSeverity := "", ExtraLabels := none, ExtraAnnotations := none, ClientConfig := none } : ConfigV).mergeV
          { URL := "", Timeout := 0, DefaultSeverity := "warning", ExtraLabels := none, ExtraAnnotations := none, ClientConfig := none }).validateV) := by
  refine ⟨by decide, ?_⟩
  obtain ⟨o, hfind, hg, heq⟩ := C10_empty_group ⟨[]⟩
    { DefaultConfig := { URL := "http://am:9093", Timeout := 0, DefaultSeverity := "", ExtraLabels := none, ExtraAnnotations := none, ClientConfig := none },
      DefaultAlert := none,
      Overrides := [{ Group := "", Config := { URL := "", Timeout := 0, DefaultSeverity := "warning", ExtraLabels := none, ExtraAnnotations := none, ClientConfig := none } }] }
    { description := none, providerOverride := none }
    (by decide) rfl
    ⟨{ Group := "", Config := { URL := "", Timeout := 0, DefaultSeverity := "warning", ExtraLabels := none, ExtraAnnotations := none, ClientConfig := none } }, by simp, rfl⟩
  have ho : o = { Group := "", Config := { URL := "", Timeout := 0, DefaultSeverity := "warning", ExtraLabels := none, ExtraAnnotations := none, ClientConfig := none } } := by
    have hcomp : ([{ Group := "", Config := { URL := "", Timeout := 0, DefaultSeverity := "warning", ExtraLabels := none, ExtraAnnotations := none, ClientConfig := none } }] : List Override).find?
        (fun o' : Override => "" == o'.Group)
      = some { Group := "", Config := { URL := "", Timeout := 0, DefaultSeverity := "warning", ExtraLabels := none, ExtraAnnotations := none, ClientConfig := none } } := rfl
    rw [hcomp] at hfind
    injection hfind with hfind'
    exact hfind'.symm
  rw [ho] at heq
  exact heq

/-- Witness for C6: an override with non-empty URL, negative Timeout and no
maps: the URL is replaced, the Timeout is kept, the map references are
unchanged, and the merge equals the value-level merge. -/
theorem C6_amended_witness :
    (Config.Merge ⟨[]⟩
        { URL := "u", Timeout := 5, DefaultSeverity := "", ExtraLabels := none, ExtraAnnotations := none, ClientConfig := none }
        { URL := "o", Timeout := -1, DefaultSeverity := "", ExtraLabels := none, ExtraAnnotations := none, ClientConfig := none }).2.URL = "o"
    ∧ (Config.Merge ⟨[]⟩
        { URL := "u", Timeout := 5, DefaultSeverity := "", ExtraLabels := none, ExtraAnnotations := none, ClientConfig := none }
        { URL := "o", Timeout := -1, DefaultSeverity := "", ExtraLabels := none, ExtraAnnotations := none, ClientConfig := none }).2.Timeout = 5
    ∧ (Config.Merge ⟨[]⟩
        { URL := "u", Timeout := 5, DefaultSeverity := "", ExtraLabels := none, ExtraAnnotations := none, ClientConfig := none }
        { URL := "o", Timeout := -1, DefaultSeverity := "", ExtraLabels := none, ExtraAnnotations := none, ClientConfig := none }).2.ExtraLabels = none
    ∧ Config.toV
        (Config.Merge ⟨[]⟩
          { URL := "u", Timeout := 5, DefaultSeverity := "", ExtraLabels := none, ExtraAnnotations := none, ClientConfig := none }
          { URL := "o", Timeout := -1, DefaultSeverity := "", ExtraLabels := none, ExtraAnnotations := none, ClientConfig := none }).1
        (Config.Merge ⟨[]⟩
          { URL := "u", Timeout := 5, DefaultSeverity := "", ExtraLabels := none, ExtraAnnotations := none, ClientConfig := none }
          { URL := "o", Timeout := -1, DefaultSeverity := "", ExtraLabels := none, ExtraAnnotations := none, ClientConfig := none }).2
      = ConfigV.mergeV
          (Config.toV ⟨[]⟩ { URL := "u", Timeout := 5, DefaultSeverity := "", ExtraLabels := none, ExtraAnnotations := none, ClientConfig := none })
          (Config.toV ⟨[]⟩ { URL := "o", Timeout := -1, DefaultSeverity := "", ExtraLabels := none, ExtraAnnotations := none, ClientConfig := none }) := by
  have ht := C6_amended ⟨[]⟩
    { URL := "u", Timeout := 5, DefaultSeverity := "", ExtraLabels := none, ExtraAnnotations := none, ClientConfig := none }
    { URL := "o", Timeout := -1, DefaultSeverity := "", ExtraLabels := none, ExtraAnnotations := none, ClientConfig := none }
  refine ⟨?_, ?_, ht.2.2.2.2.1 (by decide), ht.2.2.2.2.2.2 (by decide) (by decide) (by decide) (by decide) (by decide)⟩
  · rw [ht.1]
    decide
  · rw [ht.2.1]
    decide

/-- C7: GetConfig is side-effect-free on the provider: every heap cell that
existed before the call is unchanged, the provider's stored configuration
reads back identically, the returned config's maps share no cell with the
provider's stored config, and a second call with identical inputs yields a
field-equal (value-identical) result whose maps share no cell with the
first result's. -/
theorem C7_getconfig_pure (h : Heap) (p : AlertProvider) (group : String) (a : Alert)
    (hwf : ProviderWf h p) :
    (∀ r, r < h.size → (p.GetConfig h group a).1.get r = h.get r)
    ∧ p.toV (p.GetConfig h group a).1 = p.toV h
    ∧ (∀ cfg err, (p.GetConfig h group a).2 = some (cfg, err) →
        (∀ r, cfg.ExtraLabels = some r →
          p.DefaultConfig.ExtraLabels ≠ some r ∧ p.DefaultConfig.ExtraAnnotations ≠ some r)
        ∧ (∀ r, cfg.ExtraAnnotations = some r →
          p.DefaultConfig.ExtraLabels ≠ some r ∧ p.DefaultConfig.ExtraAnnotations ≠ some r))
    ∧ ((p.GetConfig (p.GetConfig h group a).1 group a).2.map
          (fun ce => (ce.1.toV (p.GetConfig (p.GetConfig h group a).1 group a).1, ce.2)))
        = ((p.GetConfig h group a).2.map (fun ce => (ce.1.toV (p.GetConfig h group a).1, ce.2)))
    ∧ (∀ cfg1 e1 cfg2 e2,
        (p.GetConfig h group a).2 = some (cfg1, e1) →
        (p.GetConfig (p.GetConfig h group a).1 group a).2 = some (cfg2, e2) →
        ∀ r, (cfg2.ExtraLabels = some r ∨ cfg2.ExtraAnnotations = some r) →
          cfg1.ExtraLabels ≠ some r ∧ cfg1.ExtraAnnotations ≠ some r) := by
  have hf1 := GetConfig_facts h p group a hwf
  have hext1 : HeapExt h (p.GetConfig h group a).1 := hf1.2.1
  have hwf1 : ProviderWf (p.GetConfig h group a).1 p := ProviderWf_of_ext p hwf hext1
  have hf2 := GetConfig_facts (p.GetConfig h group a).1 p group a hwf1
  refine ⟨hext1.2, providerToV_of_ext p hwf hext1, ?_, ?_, ?_⟩
  · intro cfg err hsome
    obtain ⟨hEL, hEA⟩ := hf1.2.2 cfg err hsome
    have hne : ∀ r, h.size ≤ r →
        p.DefaultConfig.ExtraLabels ≠ some r ∧ p.DefaultConfig.ExtraAnnotations ≠ some r := by
      intro r hr
      constructor
      · intro hc
        have := hwf.1.1
        rw [hc] at this
        exact Nat.lt_irrefl _ (Nat.lt_of_lt_of_le this hr)
      · intro hc
        have := hwf.1.2
        rw [hc] at this
        exact Nat.lt_irrefl _ (Nat.lt_of_lt_of_le this hr)
    exact ⟨fun r hr => hne r (hEL r hr).1, fun r hr => hne r (hEA r hr).1⟩
  · rw [hf1.1, hf2.1, providerToV_of_ext p hwf hext1]
  · intro cfg1 e1 cfg2 e2 h1 h2 r hr2
    obtain ⟨hEL1, hEA1⟩ := hf1.2.2 cfg1 e1 h1
    obtain ⟨hEL2, hEA2⟩ := hf2.2.2 cfg2 e2 h2
    have hge : (p.GetConfig h group a).1.size ≤ r := by
      rcases hr2 with hc | hc
      · exact (hEL2 r hc).1
      · exact (hEA2 r hc).1
    constructor
    · intro hc
      exact Nat.lt_irrefl _ (Nat.lt_of_lt_of_le (hEL1 r hc).2 hge)
    · intro hc
      exact Nat.lt_irrefl _ (Nat.lt_of_lt_of_le (hEA1 r hc).2 hge)

/-- Witness for C7 at a provider whose default config owns a map cell and
whose override list carries one matching override with its own cell. -/
theorem C7_getconfig_pure_witness :
    ProviderWf ⟨[[("a", "1")], [("b", "2")]]⟩
      { DefaultConfig := { URL := "http://am:9093", Timeout := 0, DefaultSeverity := "", ExtraLabels := some 0, ExtraAnnotations := none, ClientConfig := none },
        DefaultAlert := none,
        Overrides := [{ Group := "g", Config := { URL := "", Timeout := 0, DefaultSeverity := "warning", ExtraLabels := some 1, ExtraAnnotations := none, ClientConfig := none } }] }
    ∧ (AlertProvider.GetConfig ⟨[[("a", "1")], [("b", "2")]]⟩
        { DefaultConfig := { URL := "http://am:9093", Timeout := 0, DefaultSeverity := "", ExtraLabels := some 0, ExtraAnnotations := none, ClientConfig := none },
          DefaultAlert := none,
          Overrides := [{ Group := "g", Config := { URL := "", Timeout := 0, DefaultSeverity := "warning", ExtraLabels := some 1, ExtraAnnotations := none, ClientConfig := none } }] }
        "g" { description := none, providerOverride := none }).1.get 0
      = Heap.get ⟨[[("a", "1")], [("b", "2")]]⟩ 0
    ∧ AlertProvider.toV (AlertProvider.GetConfig ⟨[[("a", "1")], [("b", "2")]]⟩
        { DefaultConfig := { URL := "http://am:9093", Timeout := 0, DefaultSeverity := "", ExtraLabels := some 0, ExtraAnnotations := none, ClientConfig := none },
          DefaultAlert := none,
          Overrides := [{ Group := "g", Config := { URL := "", Timeout := 0, DefaultSeverity := "warning", ExtraLabels := some 1, ExtraAnnotations := none, ClientConfig := none } }] }
        "g" { description := none, providerOverride := none }).1
        { DefaultConfig := { URL := "http://am:9093", Timeout := 0, DefaultSeverity := "", ExtraLabels := some 0, ExtraAnnotations := none, ClientConfig := none },
          DefaultAlert := none,
          Overrides := [{ Group := "g", Config := { URL := "", Timeout := 0, DefaultSeverity := "warning", ExtraLabels := some 1, ExtraAnnotations := none, ClientConfig := none } }] }
      = AlertProvider.toV ⟨[[("a", "1")], [("b", "2")]]⟩
        { DefaultConfig := { URL := "http://am:9093", Timeout := 0, DefaultSeverity := "", ExtraLabels := some 0, ExtraAnnotations := none, ClientConfig := none },
          DefaultAlert := none,
          Overrides := [{ Group := "g", Config := { URL := "", Timeout := 0, DefaultSeverity := "warning", ExtraLabels := some 1, ExtraAnnotations := none, ClientConfig := none } }] } := by
  refine ⟨by decide, ?_, ?_⟩
  · exact (C7_getconfig_pure ⟨[[("a", "1")], [("b", "2")]]⟩
      { DefaultConfig := { URL := "http://am:9093", Timeout := 0, DefaultSeverity := "", ExtraLabels := some 0, ExtraAnnotations := none, ClientConfig := none },
        DefaultAlert := none,
        Overrides := [{ Group := "g", Config := { URL := "", Timeout := 0, DefaultSeverity := "warning", ExtraLabels := some 1, ExtraAnnotations := none, ClientConfig := none } }] }
      "g" { description := none, providerOverride := none } (by decide)).1 0 (by decide)
  · exact (C7_getconfig_pure ⟨[[("a", "1")], [("b", "2")]]⟩
      { DefaultConfig := { URL := "http://am:9093", Timeout := 0, DefaultSeverity := "", ExtraLabels := some 0, ExtraAnnotations := none, ClientConfig := none },
        DefaultAlert := none,
        Overrides := [{ Group := "g", Config := { URL := "", Timeout := 0, DefaultSeverity := "warning", ExtraLabels := some 1, ExtraAnnotations := none, ClientConfig := none } }] }
      "g" { description := none, providerOverride := none } (by decide)).2.1

end Alertmanager
